import Mathlib

/-!
Verification development for the fuel-logistics CP-SAT scheduler
(`backend/src/solver/solver.py` and `backend/src/solver/main.py`).

The decision model built by `solve` is embedded shallowly.  An `Asn` gives
concrete values to every variable family the Python code creates
(task-start indicators, refill counts, the four inventory pools, the
per-slot driving indicators, the daily extension flags and the weekly
extension flags).  `Feasible` is the conjunction of all constraints that
`solve` posts on the CP-SAT model, transcribed constraint by constraint
from the source; integer variables declared with bounded domains
contribute their domain bounds as explicit conjuncts.

The CP-SAT engine itself is an external library.  Its contract is
captured by `ValidOutcome`: a stored solution is a feasible assignment,
a solution object is stored exactly for the OPTIMAL and FEASIBLE
statuses, and an OPTIMAL solution maximizes the delivery objective.
Result extraction (the tail of `solve`) is embedded as `extract`;
reading a variable of a model that has no stored solution raises in the
binding, which is modelled by `Option` (`none` = exception).

Dates are (year, month, day) triples; ISO week numbering is implemented
as in `datetime.date.isocalendar`.  The day builder of `main.py` works
on dates encoded as proleptic-Gregorian day numbers (`rataDie`), with
`(rataDie + 6) % 7` matching Python's Monday-based `date.weekday()`.
-/

namespace FuelLog

/-- Sum of `f i` for `i = 0, ..., n-1`; the Python `sum(f(i) for i in range(n))`. -/
def nsum (n : Nat) (f : Nat → Nat) : Nat :=
  match n with
  | 0 => 0
  | k + 1 => nsum k f + f k

/-! ## Calendar (`datetime.date`) -/

/-- A Gregorian calendar date, as parsed from a `"YYYY-MM-DD"` string. -/
structure Date where
  y : Nat
  m : Nat
  d : Nat

/-- Gregorian leap-year test. -/
def isLeap (y : Nat) : Bool :=
  (y % 4 == 0 && y % 100 != 0) || y % 400 == 0

/-- Days in the months strictly before month `m` (common year). -/
def daysBeforeMonth (m : Nat) : Nat :=
  match m with
  | 0 => 0 | 1 => 0 | 2 => 31 | 3 => 59 | 4 => 90 | 5 => 120 | 6 => 151
  | 7 => 181 | 8 => 212 | 9 => 243 | 10 => 273 | 11 => 304 | _ => 334

/-- Day of the year, `1..366` (`date.timetuple().tm_yday`). -/
def ordinalInYear (dt : Date) : Nat :=
  daysBeforeMonth dt.m + (if isLeap dt.y ∧ 3 ≤ dt.m then 1 else 0) + dt.d

/-- Proleptic-Gregorian day number; `rataDie ⟨1,1,1⟩ = 1`, which is a Monday. -/
def rataDie (dt : Date) : Nat :=
  365 * (dt.y - 1) + (dt.y - 1) / 4 + (dt.y - 1) / 400 + ordinalInYear dt
    - (dt.y - 1) / 100

/-- ISO weekday, `1 = Monday, ..., 7 = Sunday`. -/
def isoWeekday (dt : Date) : Nat :=
  (rataDie dt + 6) % 7 + 1

/-- An ISO year has 53 weeks iff it starts or ends on a Thursday. -/
def weeksInIsoYear (y : Nat) : Nat :=
  if isoWeekday ⟨y, 1, 1⟩ = 4 ∨ isoWeekday ⟨y, 12, 31⟩ = 4 then 53 else 52

/-- The ISO (year, week) pair of a date, as returned by `date.isocalendar()`;
`solver.py` groups day indices by this key (`_iso_year_week`). -/
def isoYearWeek (dt : Date) : Nat × Nat :=
  let w := (ordinalInYear dt + 10 - isoWeekday dt) / 7
  if w = 0 then (dt.y - 1, weeksInIsoYear (dt.y - 1))
  else if w = 53 ∧ weeksInIsoYear dt.y = 52 then (dt.y + 1, 1)
  else (dt.y, w)

/-! ## Input document (`solve`'s `data`, after the `int(...)` parses) -/

/-- One entry of `data["days"]`. -/
structure DayIn where
  date : Date
  dT : Int
  dL : Int

/-- The configuration consumed by `solve` (lines 34-70 of `solver.py`),
with every `data.get(key, default)` already resolved except the two
totals, whose defaults depend on `initial_state`. -/
structure Config where
  days : List DayIn
  litersPerUnit : Int
  shiftMinutes : Nat
  slotMinutes : Nat
  livignoEntryStartMinutes : Nat
  livignoEntryEndMinutes : Nat
  breakWindowMinutes : Nat
  breakDriveCapMinutes : Nat
  maxResidentTrips : Int
  maxAdrTrips : Int
  adrWeeklyCap : Int
  driveMinutesDaily : Int
  driveMinutesExtended : Int
  maxExtendedDaysPerWeek : Int
  weeklyDriveLimitMinutes : Int
  biweeklyDriveLimitMinutes : Int
  driversTBase : Nat
  driversLBase : Nat
  initFT : Int
  initET : Int
  initTf : Int
  initTe : Int
  totalTrailersIn : Option Int
  totalTractorsIn : Option Int

/-- `n = len(days)`. -/
def nDays (cfg : Config) : Nat := cfg.days.length

/-- `days[d]` (out-of-range indices are never used by the constraints). -/
def dayAt (cfg : Config) (d : Nat) : DayIn :=
  cfg.days.getD d ⟨⟨1, 1, 1⟩, 0, 0⟩

/-- ISO (year, week) of day index `d`. -/
def weekKeyAt (cfg : Config) (d : Nat) : Nat × Nat :=
  isoYearWeek (dayAt cfg d).date

/-- `slots_per_day = shift_minutes // slot_minutes`. -/
def slotsPerDay (cfg : Config) : Nat := cfg.shiftMinutes / cfg.slotMinutes

/-- `total_trailers = data.get("total_trailers", init_FT + init_ET)`. -/
def totalTrailers (cfg : Config) : Int :=
  match cfg.totalTrailersIn with
  | some v => v
  | none => cfg.initFT + cfg.initET

/-- `total_tractors = data.get("total_tractors", init_Tf + init_Te)`. -/
def totalTractors (cfg : Config) : Int :=
  match cfg.totalTractorsIn with
  | some v => v
  | none => cfg.initTf + cfg.initTe

/-- `livigno_entry_start_slot = livigno_entry_start_minutes // slot_minutes`. -/
def entryStartSlot (cfg : Config) : Nat :=
  cfg.livignoEntryStartMinutes / cfg.slotMinutes

/-- `livigno_entry_end_slot = livigno_entry_end_minutes // slot_minutes`. -/
def entryEndSlot (cfg : Config) : Nat :=
  cfg.livignoEntryEndMinutes / cfg.slotMinutes

/-- `break_window_slots = break_window_minutes // slot_minutes`. -/
def breakWindowSlots (cfg : Config) : Nat :=
  cfg.breakWindowMinutes / cfg.slotMinutes

/-- `break_drive_cap_slots = break_drive_cap_minutes // slot_minutes`. -/
def breakDriveCapSlots (cfg : Config) : Nat :=
  cfg.breakDriveCapMinutes / cfg.slotMinutes

/-- `supply_slots = 345 // slot_minutes`. -/
def supplySlots (cfg : Config) : Nat := 345 / cfg.slotMinutes

/-- `shuttle_slots = 240 // slot_minutes`. -/
def shuttleSlots (cfg : Config) : Nat := 240 / cfg.slotMinutes

/-- `resident_slots = 270 // slot_minutes`. -/
def residentSlots (cfg : Config) : Nat := 270 / cfg.slotMinutes

/-- `adr_slots = 585 // slot_minutes`. -/
def adrSlots (cfg : Config) : Nat := 585 / cfg.slotMinutes

/-- `refill_slots = 30 // slot_minutes`. -/
def refillSlots (cfg : Config) : Nat := 30 / cfg.slotMinutes

/-- `supply_end_offset = supply_slots`. -/
def supplyEndOffset (cfg : Config) : Nat := supplySlots cfg

/-- `shuttle_end_offset = shuttle_slots`. -/
def shuttleEndOffset (cfg : Config) : Nat := shuttleSlots cfg

/-- `refill_end_offset = refill_slots`. -/
def refillEndOffset (cfg : Config) : Nat := refillSlots cfg

/-- `resident_refill_start_offset = 90 // slot_minutes`. -/
def residentRefillStartOffset (cfg : Config) : Nat := 90 / cfg.slotMinutes

/-- `resident_refill_end_offset = (90 + 30) // slot_minutes`. -/
def residentRefillEndOffset (cfg : Config) : Nat := 120 / cfg.slotMinutes

/-- `adr_refill_start_offset = 90 // slot_minutes`. -/
def adrRefillStartOffset (cfg : Config) : Nat := 90 / cfg.slotMinutes

/-- `adr_supply_end_offset = adr_refill_start_offset + supply_end_offset`. -/
def adrSupplyEndOffset (cfg : Config) : Nat :=
  adrRefillStartOffset cfg + supplyEndOffset cfg

/-- `shuttle_livigno_entry_offset = 120 // slot_minutes`. -/
def shuttleEntryOffset (cfg : Config) : Nat := 120 / cfg.slotMinutes

/-- `resident_livigno_entry_offset = 240 // slot_minutes`. -/
def residentEntryOffset (cfg : Config) : Nat := 240 / cfg.slotMinutes

/-- `adr_livigno_entry_offset = 555 // slot_minutes`. -/
def adrEntryOffset (cfg : Config) : Nat := 555 / cfg.slotMinutes

/-- `supply_drive_offsets = range(0,10) + range(13,23)` (fixed slot offsets). -/
abbrev supplyDriveOff (w : Nat) : Prop := w < 10 ∨ (13 ≤ w ∧ w < 23)

/-- `shuttle_drive_offsets = range(0,8) + range(10,16)`. -/
abbrev shuttleDriveOff (w : Nat) : Prop := w < 8 ∨ (10 ≤ w ∧ w < 16)

/-- `resident_drive_offsets = range(0,6) + range(8,16)`. -/
abbrev residentDriveOff (w : Nat) : Prop := w < 6 ∨ (8 ≤ w ∧ w < 16)

/-- `adr_drive_offsets = range(0,16) + range(19,37)`. -/
abbrev adrDriveOff (w : Nat) : Prop := w < 16 ∨ (19 ≤ w ∧ w < 37)

/-! ## Variable assignments -/

/-- A value for every variable family `solve` creates.  Task indicators and
refill counts are naturals (booleans are 0/1 by a domain conjunct); the
four inventory pools are indexed by day and slot boundary `0..slots_per_day`;
`drvT`/`drvL` are the per-slot driving indicator variables, `extT`/`extL`
the daily extension flags, and `extwT`/`extwL` the weekly extension flags. -/
structure Asn where
  s : Nat → Nat → Nat → Nat
  u : Nat → Nat → Nat → Nat
  v : Nat → Nat → Nat → Nat
  a : Nat → Nat → Nat → Nat
  r : Nat → Nat → Nat
  ft : Nat → Nat → Nat
  et : Nat → Nat → Nat
  tf : Nat → Nat → Nat
  te : Nat → Nat → Nat
  drvT : Nat → Nat → Nat → Bool
  drvL : Nat → Nat → Nat → Bool
  extT : Nat → Nat → Bool
  extL : Nat → Nat → Bool
  extwT : Nat → Nat → Bool
  extwL : Nat → Nat → Bool

/-- `supply_start = sum(S_start[d][i][t] for i in range(drivers_T_base))`. -/
def sSum (cfg : Config) (x : Asn) (d t : Nat) : Nat :=
  nsum cfg.driversTBase fun i => x.s d i t

/-- `shuttle_start`, summed over T drivers. -/
def uSum (cfg : Config) (x : Asn) (d t : Nat) : Nat :=
  nsum cfg.driversTBase fun i => x.u d i t

/-- `resident_start`, summed over L drivers. -/
def vSum (cfg : Config) (x : Asn) (d t : Nat) : Nat :=
  nsum cfg.driversLBase fun j => x.v d j t

/-- `adr_start`, summed over L drivers. -/
def aSum (cfg : Config) (x : Asn) (d t : Nat) : Nat :=
  nsum cfg.driversLBase fun j => x.a d j t

/-- A lagged term of the conservation equations: the slot-`(t - off)` value
when `t - off >= 0` within the day, else 0 (`solver.py` lines 290-316). -/
def lagTerm (f : Nat → Nat) (off t : Nat) : Int :=
  if off ≤ t then (f (t - off) : Int) else 0

/-- Driver `i < D_T[d]` is available that day (`available` in lines 135, 199). -/
abbrev availT (cfg : Config) (d i : Nat) : Prop :=
  ((i : Nat) : Int) < (dayAt cfg d).dT

/-- Driver `j < D_L[d]` is available that day. -/
abbrev availL (cfg : Config) (d j : Nat) : Prop :=
  ((j : Nat) : Int) < (dayAt cfg d).dL

/-- `S_start[d][i][t]` is a fresh Bool variable (rather than the constant 0)
iff the driver is available and the task fits in the shift (lines 139-142). -/
abbrev sAllowed (cfg : Config) (d i t : Nat) : Prop :=
  availT cfg d i ∧ t + supplySlots cfg ≤ slotsPerDay cfg

/-- Allowance for `U_start`: availability, fit, and the Livigno entry
window on `t + shuttle_livigno_entry_offset` (lines 143-150). -/
abbrev uAllowed (cfg : Config) (d i t : Nat) : Prop :=
  availT cfg d i ∧ t + shuttleSlots cfg ≤ slotsPerDay cfg ∧
    entryStartSlot cfg ≤ t + shuttleEntryOffset cfg ∧
    t + shuttleEntryOffset cfg ≤ entryEndSlot cfg

/-- Allowance for `V_start` (lines 203-210). -/
abbrev vAllowed (cfg : Config) (d j t : Nat) : Prop :=
  availL cfg d j ∧ t + residentSlots cfg ≤ slotsPerDay cfg ∧
    entryStartSlot cfg ≤ t + residentEntryOffset cfg ∧
    t + residentEntryOffset cfg ≤ entryEndSlot cfg

/-- Allowance for `A_start` (lines 211-218). -/
abbrev aAllowed (cfg : Config) (d j t : Nat) : Prop :=
  availL cfg d j ∧ t + adrSlots cfg ≤ slotsPerDay cfg ∧
    entryStartSlot cfg ≤ t + adrEntryOffset cfg ∧
    t + adrEntryOffset cfg ≤ entryEndSlot cfg

/-- Tasks of driver `i` covering slot `t` (the `cover` list of lines 155-163):
starts `t0` with `t0 <= t < t0 + dur` and `t0 + dur <= slots_per_day`,
written with `w = t - t0`. -/
def coverT (cfg : Config) (x : Asn) (d i t : Nat) : Nat :=
  nsum (supplySlots cfg) (fun w =>
    if w ≤ t ∧ t - w + supplySlots cfg ≤ slotsPerDay cfg then x.s d i (t - w) else 0) +
  nsum (shuttleSlots cfg) (fun w =>
    if w ≤ t ∧ t - w + shuttleSlots cfg ≤ slotsPerDay cfg then x.u d i (t - w) else 0)

/-- Tasks of L-driver `j` covering slot `t` (lines 223-231). -/
def coverL (cfg : Config) (x : Asn) (d j t : Nat) : Nat :=
  nsum (residentSlots cfg) (fun w =>
    if w ≤ t ∧ t - w + residentSlots cfg ≤ slotsPerDay cfg then x.v d j (t - w) else 0) +
  nsum (adrSlots cfg) (fun w =>
    if w ≤ t ∧ t - w + adrSlots cfg ≤ slotsPerDay cfg then x.a d j (t - w) else 0)

/-- The `contributors` sum for T-driver `i` at slot `t` (lines 176-183):
covering starts whose offset `w = t - t0` is a driving offset of the kind. -/
def contribT (cfg : Config) (x : Asn) (d i t : Nat) : Nat :=
  nsum (supplySlots cfg) (fun w =>
    if w ≤ t ∧ t - w + supplySlots cfg ≤ slotsPerDay cfg ∧ supplyDriveOff w
    then x.s d i (t - w) else 0) +
  nsum (shuttleSlots cfg) (fun w =>
    if w ≤ t ∧ t - w + shuttleSlots cfg ≤ slotsPerDay cfg ∧ shuttleDriveOff w
    then x.u d i (t - w) else 0)

/-- The `contributors` sum for L-driver `j` at slot `t` (lines 244-251). -/
def contribL (cfg : Config) (x : Asn) (d j t : Nat) : Nat :=
  nsum (residentSlots cfg) (fun w =>
    if w ≤ t ∧ t - w + residentSlots cfg ≤ slotsPerDay cfg ∧ residentDriveOff w
    then x.v d j (t - w) else 0) +
  nsum (adrSlots cfg) (fun w =>
    if w ≤ t ∧ t - w + adrSlots cfg ≤ slotsPerDay cfg ∧ adrDriveOff w
    then x.a d j (t - w) else 0)

/-- `drive_day` of a T driver: `sum(s*300 + u*210)` minutes (line 170). -/
def driveDayT (cfg : Config) (x : Asn) (d i : Nat) : Nat :=
  nsum (slotsPerDay cfg) fun t => x.s d i t * 300 + x.u d i t * 210

/-- `drive_day` of an L driver: `sum(v*210 + a*510)` minutes (line 238). -/
def driveDayL (cfg : Config) (x : Asn) (d j : Nat) : Nat :=
  nsum (slotsPerDay cfg) fun t => x.v d j t * 210 + x.a d j t * 510

/-- `total_deliveries = sum over days of (sum U + sum V + sum A)` (line 436). -/
def deliveries (cfg : Config) (x : Asn) : Nat :=
  nsum (nDays cfg) fun d =>
    (nsum cfg.driversTBase fun i => nsum (slotsPerDay cfg) fun t => x.u d i t) +
    (nsum cfg.driversLBase fun j => nsum (slotsPerDay cfg) fun t => x.v d j t) +
    (nsum cfg.driversLBase fun j => nsum (slotsPerDay cfg) fun t => x.a d j t)

/-- Ordered duplicate-free insertion under the lexicographic order on
ISO (year, week) keys. -/
def insertWeekKey (k : Nat × Nat) : List (Nat × Nat) → List (Nat × Nat)
  | [] => [k]
  | h :: rest =>
    if k = h then h :: rest
    else if k.1 < h.1 ∨ (k.1 = h.1 ∧ k.2 ≤ h.2) then k :: h :: rest
    else h :: insertWeekKey k rest

/-- The sorted list of distinct ISO week keys, `sorted(weeks.keys())` (line 412). -/
def sortedWeekKeys (cfg : Config) : List (Nat × Nat) :=
  (cfg.days.map fun dd => isoYearWeek dd.date).foldr insertWeekKey []

/-! ## The constraint set posted by `solve`

Each `Con...` below transcribes one family of `model.add(...)` calls (or
variable-domain declarations) from `solver.py`; `Feasible` is their
conjunction, i.e. the predicate an assignment satisfies iff it is a
solution of the constructed CP-SAT model. -/

/-- Domains of the inventory variables: `new_int_var(0, total_trailers)` /
`new_int_var(0, total_tractors)` at every slot boundary (lines 118-121). -/
abbrev ConDom (cfg : Config) (x : Asn) : Prop :=
  ∀ d < nDays cfg, ∀ t ≤ slotsPerDay cfg,
    (x.ft d t : Int) ≤ totalTrailers cfg ∧ (x.et d t : Int) ≤ totalTrailers cfg ∧
    (x.tf d t : Int) ≤ totalTractors cfg ∧ (x.te d t : Int) ≤ totalTractors cfg

/-- Domain of the refill counts: `new_int_var(0, total_trailers)` (line 129). -/
abbrev ConRDom (cfg : Config) (x : Asn) : Prop :=
  ∀ d < nDays cfg, ∀ t < slotsPerDay cfg, (x.r d t : Int) ≤ totalTrailers cfg

/-- `S`/`U` are Bool variables where allowed and the constant 0 elsewhere
(lines 134-150): value at most 1 when allowed, 0 otherwise. -/
abbrev ConStartT (cfg : Config) (x : Asn) : Prop :=
  ∀ d < nDays cfg, ∀ i < cfg.driversTBase, ∀ t < slotsPerDay cfg,
    x.s d i t ≤ (if sAllowed cfg d i t then 1 else 0) ∧
    x.u d i t ≤ (if uAllowed cfg d i t then 1 else 0)

/-- `V`/`A` are Bool variables where allowed and the constant 0 elsewhere
(lines 198-218). -/
abbrev ConStartL (cfg : Config) (x : Asn) : Prop :=
  ∀ d < nDays cfg, ∀ j < cfg.driversLBase, ∀ t < slotsPerDay cfg,
    x.v d j t ≤ (if vAllowed cfg d j t then 1 else 0) ∧
    x.a d j t ≤ (if aAllowed cfg d j t then 1 else 0)

/-- Per-driver no-overlap at Tirano: `sum(cover) <= 1` (lines 155-163). -/
abbrev ConOverlapT (cfg : Config) (x : Asn) : Prop :=
  ∀ d < nDays cfg, ∀ i < cfg.driversTBase, ∀ t < slotsPerDay cfg,
    coverT cfg x d i t ≤ 1

/-- Per-driver no-overlap at Livigno (lines 223-231). -/
abbrev ConOverlapL (cfg : Config) (x : Asn) : Prop :=
  ∀ d < nDays cfg, ∀ j < cfg.driversLBase, ∀ t < slotsPerDay cfg,
    coverL cfg x d j t ≤ 1

/-- Daily driving limits at Tirano (lines 166-172): the `drive_day` variable
has domain `[0, drive_minutes_extended]`, `ext` is the constant 0 for an
unavailable driver, and `drive_day <= daily + ext * (extended - daily)`. -/
abbrev ConDailyT (cfg : Config) (x : Asn) : Prop :=
  ∀ d < nDays cfg, ∀ i < cfg.driversTBase,
    (driveDayT cfg x d i : Int) ≤ cfg.driveMinutesExtended ∧
    (x.extT d i).toNat ≤ (if availT cfg d i then 1 else 0) ∧
    (driveDayT cfg x d i : Int) ≤ cfg.driveMinutesDaily +
      (if x.extT d i then (1 : Int) else 0) *
        (cfg.driveMinutesExtended - cfg.driveMinutesDaily)

/-- Daily driving limits at Livigno (lines 234-240). -/
abbrev ConDailyL (cfg : Config) (x : Asn) : Prop :=
  ∀ d < nDays cfg, ∀ j < cfg.driversLBase,
    (driveDayL cfg x d j : Int) ≤ cfg.driveMinutesExtended ∧
    (x.extL d j).toNat ≤ (if availL cfg d j then 1 else 0) ∧
    (driveDayL cfg x d j : Int) ≤ cfg.driveMinutesDaily +
      (if x.extL d j then (1 : Int) else 0) *
        (cfg.driveMinutesExtended - cfg.driveMinutesDaily)

/-- The driving indicator `drv_t` is a Bool variable equal to the sum of
its contributors (lines 176-186). -/
abbrev ConDrvEqT (cfg : Config) (x : Asn) : Prop :=
  ∀ d < nDays cfg, ∀ i < cfg.driversTBase, ∀ t < slotsPerDay cfg,
    (x.drvT d i t).toNat = contribT cfg x d i t

/-- The driving indicator of an L driver (lines 244-254). -/
abbrev ConDrvEqL (cfg : Config) (x : Asn) : Prop :=
  ∀ d < nDays cfg, ∀ j < cfg.driversLBase, ∀ t < slotsPerDay cfg,
    (x.drvL d j t).toNat = contribL cfg x d j t

/-- Rolling break rule at Tirano (lines 188-190): for every window start in
`range(slots_per_day - break_window_slots + 1)` (no window when the window
is longer than the day, matching the `if` guard), the driving slots in the
window are at most `break_drive_cap_slots`. -/
abbrev ConBreakT (cfg : Config) (x : Asn) : Prop :=
  ∀ d < nDays cfg, ∀ i < cfg.driversTBase,
    ∀ t0 < slotsPerDay cfg + 1 - breakWindowSlots cfg,
      nsum (breakWindowSlots cfg) (fun w => (x.drvT d i (t0 + w)).toNat) ≤
        breakDriveCapSlots cfg

/-- Rolling break rule at Livigno (lines 256-258). -/
abbrev ConBreakL (cfg : Config) (x : Asn) : Prop :=
  ∀ d < nDays cfg, ∀ j < cfg.driversLBase,
    ∀ t0 < slotsPerDay cfg + 1 - breakWindowSlots cfg,
      nsum (breakWindowSlots cfg) (fun w => (x.drvL d j (t0 + w)).toNat) ≤
        breakDriveCapSlots cfg

/-- Per-day trip caps for L drivers, active only when nonnegative
(lines 261-264). -/
abbrev ConTrips (cfg : Config) (x : Asn) : Prop :=
  ∀ d < nDays cfg, ∀ j < cfg.driversLBase,
    (0 ≤ cfg.maxResidentTrips →
      (nsum (slotsPerDay cfg) (fun t => x.v d j t) : Int) ≤ cfg.maxResidentTrips) ∧
    (0 ≤ cfg.maxAdrTrips →
      (nsum (slotsPerDay cfg) (fun t => x.a d j t) : Int) ≤ cfg.maxAdrTrips)

/-- Day-0 inventory equals the initial state (lines 271-275). -/
abbrev ConInitInv (cfg : Config) (x : Asn) : Prop :=
  0 < nDays cfg →
    (x.ft 0 0 : Int) = cfg.initFT ∧ (x.et 0 0 : Int) = cfg.initET ∧
    (x.tf 0 0 : Int) = cfg.initTf ∧ (x.te 0 0 : Int) = cfg.initTe

/-- Day-boundary copy: `X[d][0] == X[d-1][slots_per_day]` (lines 277-280). -/
abbrev ConCopyInv (cfg : Config) (x : Asn) : Prop :=
  ∀ d < nDays cfg - 1,
    x.ft (d + 1) 0 = x.ft d (slotsPerDay cfg) ∧
    x.et (d + 1) 0 = x.et d (slotsPerDay cfg) ∧
    x.tf (d + 1) 0 = x.tf d (slotsPerDay cfg) ∧
    x.te (d + 1) 0 = x.te d (slotsPerDay cfg)

/-- Resource availability at slot start (lines 319-322). -/
abbrev ConResource (cfg : Config) (x : Asn) : Prop :=
  ∀ d < nDays cfg, ∀ t < slotsPerDay cfg,
    sSum cfg x d t ≤ x.et d t ∧
    sSum cfg x d t + x.r d t ≤ x.te d t ∧
    uSum cfg x d t ≤ x.tf d t ∧
    x.r d t ≤ x.ft d t

/-- Conservation of full trailers (lines 325-328). -/
abbrev ConTransFT (cfg : Config) (x : Asn) : Prop :=
  ∀ d < nDays cfg, ∀ t < slotsPerDay cfg,
    (x.ft d (t + 1) : Int) = (x.ft d t : Int) +
      lagTerm (sSum cfg x d) (supplyEndOffset cfg) t +
      lagTerm (aSum cfg x d) (adrSupplyEndOffset cfg) t -
      (x.r d t : Int) -
      lagTerm (vSum cfg x d) (residentRefillStartOffset cfg) t

/-- Conservation of empty trailers (lines 329-332). -/
abbrev ConTransET (cfg : Config) (x : Asn) : Prop :=
  ∀ d < nDays cfg, ∀ t < slotsPerDay cfg,
    (x.et d (t + 1) : Int) = (x.et d t : Int) -
      (sSum cfg x d t : Int) +
      lagTerm (x.r d) (refillEndOffset cfg) t +
      lagTerm (vSum cfg x d) (residentRefillEndOffset cfg) t -
      lagTerm (aSum cfg x d) (adrRefillStartOffset cfg) t

/-- Conservation of free tractors (lines 333-336). -/
abbrev ConTransTf (cfg : Config) (x : Asn) : Prop :=
  ∀ d < nDays cfg, ∀ t < slotsPerDay cfg,
    (x.tf d (t + 1) : Int) = (x.tf d t : Int) +
      lagTerm (sSum cfg x d) (supplyEndOffset cfg) t +
      lagTerm (x.r d) (refillEndOffset cfg) t -
      (uSum cfg x d t : Int)

/-- Conservation of engaged tractors (lines 337-340). -/
abbrev ConTransTe (cfg : Config) (x : Asn) : Prop :=
  ∀ d < nDays cfg, ∀ t < slotsPerDay cfg,
    (x.te d (t + 1) : Int) = (x.te d t : Int) -
      (sSum cfg x d t : Int) -
      (x.r d t : Int) +
      lagTerm (uSum cfg x d) (shuttleEndOffset cfg) t

/-- On-site totals are capped at every boundary `t + 1` (lines 343-344). -/
abbrev ConSumCaps (cfg : Config) (x : Asn) : Prop :=
  ∀ d < nDays cfg, ∀ t < slotsPerDay cfg,
    (x.ft d (t + 1) : Int) + (x.et d (t + 1) : Int) ≤ totalTrailers cfg ∧
    (x.tf d (t + 1) : Int) + (x.te d (t + 1) : Int) ≤ totalTractors cfg

/-- Weekly ADR cap per L driver and ISO week, when nonnegative
(lines 352-358); the week of `d0` collects all day indices with the same
ISO (year, week) key. -/
abbrev ConAdrWeek (cfg : Config) (x : Asn) : Prop :=
  0 ≤ cfg.adrWeeklyCap →
    ∀ j < cfg.driversLBase, ∀ d0 < nDays cfg,
      (nsum (nDays cfg) (fun d =>
        if weekKeyAt cfg d = weekKeyAt cfg d0
        then nsum (slotsPerDay cfg) (fun t => x.a d j t) else 0) : Int) ≤
        cfg.adrWeeklyCap

/-- Weekly extended-day accounting for T drivers (lines 360-375): per day a
Bool flag reified in both directions against `drive_day > daily`, the
auxiliary `drive_day` variable having domain `[0, extended]`, and per week
at most `max_extended_days_per_week` flags set. -/
abbrev ConExtWeekT (cfg : Config) (x : Asn) : Prop :=
  0 ≤ cfg.maxExtendedDaysPerWeek →
    ∀ i < cfg.driversTBase,
      (∀ d < nDays cfg,
        (driveDayT cfg x d i : Int) ≤ cfg.driveMinutesExtended ∧
        (x.extwT d i = true → (cfg.driveMinutesDaily : Int) < driveDayT cfg x d i) ∧
        (x.extwT d i = false → (driveDayT cfg x d i : Int) ≤ cfg.driveMinutesDaily)) ∧
      (∀ d0 < nDays cfg,
        (nsum (nDays cfg) (fun d =>
          if weekKeyAt cfg d = weekKeyAt cfg d0 then (x.extwT d i).toNat else 0) : Int) ≤
          cfg.maxExtendedDaysPerWeek)

/-- Weekly extended-day accounting for L drivers (lines 376-389). -/
abbrev ConExtWeekL (cfg : Config) (x : Asn) : Prop :=
  0 ≤ cfg.maxExtendedDaysPerWeek →
    ∀ j < cfg.driversLBase,
      (∀ d < nDays cfg,
        (driveDayL cfg x d j : Int) ≤ cfg.driveMinutesExtended ∧
        (x.extwL d j = true → (cfg.driveMinutesDaily : Int) < driveDayL cfg x d j) ∧
        (x.extwL d j = false → (driveDayL cfg x d j : Int) ≤ cfg.driveMinutesDaily)) ∧
      (∀ d0 < nDays cfg,
        (nsum (nDays cfg) (fun d =>
          if weekKeyAt cfg d = weekKeyAt cfg d0 then (x.extwL d j).toNat else 0) : Int) ≤
          cfg.maxExtendedDaysPerWeek)

/-- Weekly driving cap for T drivers, when nonnegative (lines 391-400). -/
abbrev ConWeekDriveT (cfg : Config) (x : Asn) : Prop :=
  0 ≤ cfg.weeklyDriveLimitMinutes →
    ∀ i < cfg.driversTBase, ∀ d0 < nDays cfg,
      (nsum (nDays cfg) (fun d =>
        if weekKeyAt cfg d = weekKeyAt cfg d0 then driveDayT cfg x d i else 0) : Int) ≤
        cfg.weeklyDriveLimitMinutes

/-- Weekly driving cap for L drivers (lines 401-409). -/
abbrev ConWeekDriveL (cfg : Config) (x : Asn) : Prop :=
  0 ≤ cfg.weeklyDriveLimitMinutes →
    ∀ j < cfg.driversLBase, ∀ d0 < nDays cfg,
      (nsum (nDays cfg) (fun d =>
        if weekKeyAt cfg d = weekKeyAt cfg d0 then driveDayL cfg x d j else 0) : Int) ≤
        cfg.weeklyDriveLimitMinutes

/-- Biweekly driving cap for T drivers over adjacent sorted week keys,
active only with a nonnegative limit and at least two weeks
(lines 411-422). -/
abbrev ConBiweekT (cfg : Config) (x : Asn) : Prop :=
  0 ≤ cfg.biweeklyDriveLimitMinutes → 1 < (sortedWeekKeys cfg).length →
    ∀ k < (sortedWeekKeys cfg).length - 1, ∀ i < cfg.driversTBase,
      (nsum (nDays cfg) (fun d =>
        if weekKeyAt cfg d = (sortedWeekKeys cfg).getD k (0, 0) ∨
           weekKeyAt cfg d = (sortedWeekKeys cfg).getD (k + 1) (0, 0)
        then driveDayT cfg x d i else 0) : Int) ≤
        cfg.biweeklyDriveLimitMinutes

/-- Biweekly driving cap for L drivers (lines 423-432). -/
abbrev ConBiweekL (cfg : Config) (x : Asn) : Prop :=
  0 ≤ cfg.biweeklyDriveLimitMinutes → 1 < (sortedWeekKeys cfg).length →
    ∀ k < (sortedWeekKeys cfg).length - 1, ∀ j < cfg.driversLBase,
      (nsum (nDays cfg) (fun d =>
        if weekKeyAt cfg d = (sortedWeekKeys cfg).getD k (0, 0) ∨
           weekKeyAt cfg d = (sortedWeekKeys cfg).getD (k + 1) (0, 0)
        then driveDayL cfg x d j else 0) : Int) ≤
        cfg.biweeklyDriveLimitMinutes

/-- Domain of the `total_deliveries` variable: `new_int_var(0, n * slots_per_day)`
(line 435), together with the defining equality (line 436). -/
abbrev ConObjDom (cfg : Config) (x : Asn) : Prop :=
  deliveries cfg x ≤ nDays cfg * slotsPerDay cfg

/-- An assignment is feasible iff it satisfies every constraint `solve`
posts on the CP-SAT model. -/
structure Feasible (cfg : Config) (x : Asn) : Prop where
  dom : ConDom cfg x
  rdom : ConRDom cfg x
  startT : ConStartT cfg x
  startL : ConStartL cfg x
  overlapT : ConOverlapT cfg x
  overlapL : ConOverlapL cfg x
  dailyT : ConDailyT cfg x
  dailyL : ConDailyL cfg x
  drvEqT : ConDrvEqT cfg x
  drvEqL : ConDrvEqL cfg x
  breakT : ConBreakT cfg x
  breakL : ConBreakL cfg x
  trips : ConTrips cfg x
  initInv : ConInitInv cfg x
  copyInv : ConCopyInv cfg x
  resource : ConResource cfg x
  transFT : ConTransFT cfg x
  transET : ConTransET cfg x
  transTf : ConTransTf cfg x
  transTe : ConTransTe cfg x
  sumCaps : ConSumCaps cfg x
  adrWeek : ConAdrWeek cfg x
  extWeekT : ConExtWeekT cfg x
  extWeekL : ConExtWeekL cfg x
  weekDriveT : ConWeekDriveT cfg x
  weekDriveL : ConWeekDriveL cfg x
  biweekT : ConBiweekT cfg x
  biweekL : ConBiweekL cfg x
  objDom : ConObjDom cfg x

set_option synthInstance.maxSize 2000 in
set_option maxHeartbeats 1000000 in
instance instDecFeasible (cfg : Config) (x : Asn) : Decidable (Feasible cfg x) :=
  decidable_of_iff
    (ConDom cfg x ∧ ConRDom cfg x ∧ ConStartT cfg x ∧ ConStartL cfg x ∧
     ConOverlapT cfg x ∧ ConOverlapL cfg x ∧ ConDailyT cfg x ∧ ConDailyL cfg x ∧
     ConDrvEqT cfg x ∧ ConDrvEqL cfg x ∧ ConBreakT cfg x ∧ ConBreakL cfg x ∧
     ConTrips cfg x ∧ ConInitInv cfg x ∧ ConCopyInv cfg x ∧ ConResource cfg x ∧
     ConTransFT cfg x ∧ ConTransET cfg x ∧ ConTransTf cfg x ∧ ConTransTe cfg x ∧
     ConSumCaps cfg x ∧ ConAdrWeek cfg x ∧ ConExtWeekT cfg x ∧ ConExtWeekL cfg x ∧
     ConWeekDriveT cfg x ∧ ConWeekDriveL cfg x ∧ ConBiweekT cfg x ∧ ConBiweekL cfg x ∧
     ConObjDom cfg x)
    ⟨fun ⟨h1, h2, h3, h4, h5, h6, h7, h8, h9, h10, h11, h12, h13, h14, h15, h16,
          h17, h18, h19, h20, h21, h22, h23, h24, h25, h26, h27, h28, h29⟩ =>
      ⟨h1, h2, h3, h4, h5, h6, h7, h8, h9, h10, h11, h12, h13, h14, h15, h16,
       h17, h18, h19, h20, h21, h22, h23, h24, h25, h26, h27, h28, h29⟩,
     fun h =>
      ⟨h.dom, h.rdom, h.startT, h.startL, h.overlapT, h.overlapL, h.dailyT,
       h.dailyL, h.drvEqT, h.drvEqL, h.breakT, h.breakL, h.trips, h.initInv,
       h.copyInv, h.resource, h.transFT, h.transET, h.transTf, h.transTe,
       h.sumCaps, h.adrWeek, h.extWeekT, h.extWeekL, h.weekDriveT,
       h.weekDriveL, h.biweekT, h.biweekL, h.objDom⟩⟩

/-! ## Solver outcome and result extraction (`solve` lines 447-513)

The CP-SAT engine is external; `ValidOutcome` states its contract: a
solution object is stored iff the returned status is OPTIMAL or FEASIBLE,
any stored solution satisfies the model, and an OPTIMAL one maximizes the
objective.  The extraction code reads `solver.value(...)` for every
variable unconditionally; reading without a stored solution raises in the
binding, modelled here by `Option` (`none` = exception). -/

/-- The five CP-SAT statuses of `STATUS_MAP` (lines 18-24). -/
inductive St where
  | OPTIMAL
  | FEASIBLE
  | INFEASIBLE
  | MODEL_INVALID
  | UNKNOWN
  deriving DecidableEq

/-- What `solver.solve(model)` hands back: a status and, for the two
solution-carrying statuses, a stored assignment. -/
structure Outcome where
  st : St
  sol : Option Asn

/-- The contract of the external CP-SAT solve on the constructed model. -/
def ValidOutcome (cfg : Config) (o : Outcome) : Prop :=
  (o.sol.isSome = true ↔ (o.st = St.OPTIMAL ∨ o.st = St.FEASIBLE)) ∧
  (∀ x, o.sol = some x → Feasible cfg x) ∧
  (o.st = St.OPTIMAL → ∀ x, o.sol = some x →
    ∀ y, Feasible cfg y → deliveries cfg y ≤ deliveries cfg x)

/-- Task labels used in the per-driver `starts` lists. -/
inductive TaskTag where
  | S
  | U
  | V
  | A
  deriving DecidableEq

/-- `solver.value(var)`: the stored value, or an exception (`none`) when the
solve left no solution to read. -/
def readVal (sol : Option Asn) (f : Asn → Nat) : Option Nat :=
  match sol with
  | some x => some (f x)
  | none => none

/-- `sum(value(...) for ... in range(k))`: an empty generator reads nothing. -/
def osum (k : Nat) (f : Nat → Option Nat) : Option Nat :=
  match k with
  | 0 => some 0
  | j + 1 => do
    let acc ← osum j f
    let b ← f j
    pure (acc + b)

/-- A loop over `range(k)` appending one result per iteration. -/
def mapRangeM {α : Type} (k : Nat) (f : Nat → Option α) : Option (List α) :=
  match k with
  | 0 => some []
  | j + 1 => do
    let l ← mapRangeM j f
    let a ← f j
    pure (l ++ [a])

/-- The `starts` list of T-driver `i` over slots `0..k-1` (lines 463-470):
per slot, an `S` entry if the S indicator is set, then a `U` entry. -/
def startsTUpTo (sol : Option Asn) (d i : Nat) : Nat → Option (List (TaskTag × Nat))
  | 0 => some []
  | t + 1 => do
    let l ← startsTUpTo sol d i t
    let sv ← readVal sol fun x => x.s d i t
    let l1 := if sv ≠ 0 then l ++ [(TaskTag.S, t)] else l
    let uv ← readVal sol fun x => x.u d i t
    pure (if uv ≠ 0 then l1 ++ [(TaskTag.U, t)] else l1)

/-- The `starts` list of L-driver `j` (lines 472-480). -/
def startsLUpTo (sol : Option Asn) (d j : Nat) : Nat → Option (List (TaskTag × Nat))
  | 0 => some []
  | t + 1 => do
    let l ← startsLUpTo sol d j t
    let vv ← readVal sol fun x => x.v d j t
    let l1 := if vv ≠ 0 then l ++ [(TaskTag.V, t)] else l
    let av ← readVal sol fun x => x.a d j t
    pure (if av ≠ 0 then l1 ++ [(TaskTag.A, t)] else l1)

/-- One entry of the reported `days` list (lines 482-503). -/
structure DayOut where
  date : Date
  dT : Int
  dL : Int
  sCount : Nat
  uCount : Nat
  vCount : Nat
  aCount : Nat
  rCount : Nat
  driversT : List (List (TaskTag × Nat))
  driversL : List (List (TaskTag × Nat))
  ftStart : Nat
  etStart : Nat
  tfStart : Nat
  teStart : Nat
  ftEnd : Nat
  etEnd : Nat
  tfEnd : Nat
  teEnd : Nat

/-- The per-day extraction loop body (lines 455-503), reading every
variable of day `d` in source order. -/
def buildDayOut (cfg : Config) (sol : Option Asn) (d : Nat) : Option DayOut := do
  let sc ← osum cfg.driversTBase fun i =>
    osum (slotsPerDay cfg) fun t => readVal sol fun x => x.s d i t
  let uc ← osum cfg.driversTBase fun i =>
    osum (slotsPerDay cfg) fun t => readVal sol fun x => x.u d i t
  let vc ← osum cfg.driversLBase fun j =>
    osum (slotsPerDay cfg) fun t => readVal sol fun x => x.v d j t
  let ac ← osum cfg.driversLBase fun j =>
    osum (slotsPerDay cfg) fun t => readVal sol fun x => x.a d j t
  let rc ← osum (slotsPerDay cfg) fun t => readVal sol fun x => x.r d t
  let dT ← mapRangeM cfg.driversTBase fun i => startsTUpTo sol d i (slotsPerDay cfg)
  let dL ← mapRangeM cfg.driversLBase fun j => startsLUpTo sol d j (slotsPerDay cfg)
  let fts ← readVal sol fun x => x.ft d 0
  let ets ← readVal sol fun x => x.et d 0
  let tfs ← readVal sol fun x => x.tf d 0
  let tes ← readVal sol fun x => x.te d 0
  let fte ← readVal sol fun x => x.ft d (slotsPerDay cfg)
  let ete ← readVal sol fun x => x.et d (slotsPerDay cfg)
  let tfe ← readVal sol fun x => x.tf d (slotsPerDay cfg)
  let tee ← readVal sol fun x => x.te d (slotsPerDay cfg)
  pure ⟨(dayAt cfg d).date, (dayAt cfg d).dT, (dayAt cfg d).dL,
        sc, uc, vc, ac, rc, dT, dL, fts, ets, tfs, tes, fte, ete, tfe, tee⟩

/-- The value returned by `solve` (the `SolveResult` dataclass), with the
status kept as the `St` enumeration that `STATUS_MAP` renders to strings. -/
structure SolveResultM where
  status : St
  objectiveDeliveries : Int
  objectiveLiters : Int
  daysOut : List DayOut

/-- The tail of `solve` after `solver.solve(model)` (lines 452-513): build
the per-day reports, then the objective, which is read from the solver
only for the OPTIMAL/FEASIBLE statuses and is 0 otherwise (line 505). -/
def extract (cfg : Config) (o : Outcome) : Option SolveResultM := do
  let ds ← mapRangeM (nDays cfg) (buildDayOut cfg o.sol)
  let tot ← if o.st = St.OPTIMAL ∨ o.st = St.FEASIBLE
    then readVal o.sol fun x => deliveries cfg x
    else some 0
  pure ⟨o.st, (tot : Int), (tot : Int) * cfg.litersPerUnit, ds⟩

/-! ## The day builder (`main.py`, `build_days`)

Dates are encoded by their proleptic-Gregorian day number (`rataDie`);
adding one day is adding one, and `(n + 6) % 7` is Python's Monday-based
`date.weekday()`. -/

/-- One record of the `days` list produced by `build_days`. -/
structure BDay where
  date : Nat
  dT : Int
  dL : Int

/-- `D_T`/`D_L` as given in the request: either a positional sequence or a
date-keyed mapping (`main.py` lines 39-46). -/
inductive Avail where
  | seq : List Int → Avail
  | byDate : List (Nat × Int) → Avail

/-- Availability lookup for the day at `dateN` with positional index `idx`:
`int(d[idx]) if idx < len(d) else 0` for a sequence,
`int(d.get(day_str, 0))` for a mapping. -/
def availAt (av : Avail) (idx : Nat) (dateN : Nat) : Int :=
  match av with
  | .seq l => if idx < l.length then l.getD idx 0 else 0
  | .byDate m => (m.lookup dateN).getD 0

/-- Python's `date.weekday()`: Monday = 0, ..., Sunday = 6. -/
def pyWeekday (dateN : Nat) : Nat := (dateN + 6) % 7

/-- The `while cur <= end` loop of `build_days`, with one fuel unit per
calendar day; weekend days are skipped without consuming a positional
index when `include_weekend` is false. -/
def buildDaysGo (dT dL : Avail) (includeWeekend : Bool) :
    Nat → Nat → Nat → List BDay
  | _, _, 0 => []
  | idx, cur, f + 1 =>
    if includeWeekend = false ∧ 5 ≤ pyWeekday cur then
      buildDaysGo dT dL includeWeekend idx (cur + 1) f
    else
      ⟨cur, availAt dT idx cur, availAt dL idx cur⟩ ::
        buildDaysGo dT dL includeWeekend (idx + 1) (cur + 1) f

/-- `build_days(start_date, end_date, d_t, d_l, include_weekend)`;
`none` models the `ValueError` raised when `end_date < start_date`. -/
def buildDays (startD endD : Nat) (dT dL : Avail) (includeWeekend : Bool) :
    Option (List BDay) :=
  if endD < startD then none
  else some (buildDaysGo dT dL includeWeekend 0 startD (endD + 1 - startD))

/-! ## Concrete instances used by the witnesses and counterexamples -/

/-- The all-zero assignment. -/
def zeroAsn : Asn :=
  ⟨fun _ _ _ => 0, fun _ _ _ => 0, fun _ _ _ => 0, fun _ _ _ => 0,
   fun _ _ => 0, fun _ _ => 0, fun _ _ => 0, fun _ _ => 0, fun _ _ => 0,
   fun _ _ _ => false, fun _ _ _ => false,
   fun _ _ => false, fun _ _ => false, fun _ _ => false, fun _ _ => false⟩

/-- A request with every optional key at its documented default and no days. -/
def baseCfg : Config where
  days := []
  litersPerUnit := 17500
  shiftMinutes := 720
  slotMinutes := 15
  livignoEntryStartMinutes := 120
  livignoEntryEndMinutes := 750
  breakWindowMinutes := 315
  breakDriveCapMinutes := 270
  maxResidentTrips := 2
  maxAdrTrips := 1
  adrWeeklyCap := 2
  driveMinutesDaily := 540
  driveMinutesExtended := 600
  maxExtendedDaysPerWeek := 2
  weeklyDriveLimitMinutes := 3360
  biweeklyDriveLimitMinutes := 5400
  driversTBase := 4
  driversLBase := 1
  initFT := 0
  initET := 0
  initTf := 0
  initTe := 0
  totalTrailersIn := none
  totalTractorsIn := none

/-- Monday 2024-06-03 (ISO week 23 of 2024). -/
def defDate : Date := ⟨2024, 6, 3⟩

/-- One-day request at defaults except a 2-hour shift; no drivers, the
initial state holds one full trailer and one engaged tractor. -/
def cfgC5 : Config :=
  { baseCfg with days := [⟨defDate, 0, 0⟩], shiftMinutes := 120,
                 initFT := 1, initTe := 1 }

/-- An assignment for `cfgC5` whose only start is one refill at slot 0. -/
def asnC5 : Asn :=
  { zeroAsn with
    r := fun d t => if d = 0 ∧ t = 0 then 1 else 0,
    ft := fun _ t => if t = 0 then 1 else 0,
    et := fun _ t => if 3 ≤ t then 1 else 0,
    tf := fun _ t => if 3 ≤ t then 1 else 0,
    te := fun _ t => if t = 0 then 1 else 0 }

/-- A FEASIBLE outcome carrying `asnC5`. -/
def oC5 : Outcome := ⟨St.FEASIBLE, some asnC5⟩

/-- The B2 family of the claim: one day, defaults, `FT = ET = 0`, free
`Tf`, `Te` and driver availabilities. -/
def cfgB2 (dt : Date) (a b tf te : Int) : Config :=
  { baseCfg with days := [⟨dt, a, b⟩], initTf := tf, initTe := te }

/-- The concrete member of the B2 family refuting the claim: one T driver
and one free tractor. -/
def cfgC4 : Config := cfgB2 defDate 1 0 1 0

/-- An assignment for `cfgC4` with a single shuttle start at slot 0 by
driver 0: one delivery. -/
def asnC4 : Asn :=
  { zeroAsn with
    u := fun d i t => if d = 0 ∧ i = 0 ∧ t = 0 then 1 else 0,
    tf := fun _ t => if t = 0 then 1 else 0,
    te := fun _ t => if 17 ≤ t then 1 else 0,
    drvT := fun d i t =>
      if d = 0 ∧ i = 0 ∧ (t < 8 ∨ (10 ≤ t ∧ t < 16)) then true else false }

/-- A FEASIBLE outcome carrying `asnC4`. -/
def oC4 : Outcome := ⟨St.FEASIBLE, some asnC4⟩

/-- One-day, 2-hour-shift request with a supplied trailer cap of 4 but an
initial on-site trailer count of 5 (`FT = 4`, `ET = 1`, each within the
individual variable domains). -/
def cfgC7 : Config :=
  { baseCfg with days := [⟨defDate, 0, 0⟩], shiftMinutes := 120,
                 initFT := 4, initET := 1, initTf := 0, initTe := 4,
                 totalTrailersIn := some 4 }

/-- An assignment for `cfgC7`: refills at slots 0, 2, 4 and 6 keep one
trailer in transit through every later boundary, so every boundary from 1
on satisfies the cap while boundary 0 exceeds it. -/
def asnC7 : Asn :=
  { zeroAsn with
    r := fun d t => if d = 0 ∧ (t = 0 ∨ t = 2 ∨ t = 4 ∨ t = 6) then 1 else 0,
    ft := fun _ t => 4 - (t + 1) / 2,
    et := fun _ t => 1 + (if 3 ≤ t then (t - 1) / 2 else 0),
    tf := fun _ t => if 3 ≤ t then (t - 1) / 2 else 0,
    te := fun _ t => 4 - (t + 1) / 2 }

/-- A FEASIBLE outcome carrying `asnC7`. -/
def oC7 : Outcome := ⟨St.FEASIBLE, some asnC7⟩

/-- A one-day request whose slot size (30 min) does not divide the supply
(345 min) and ADR (585 min) durations. -/
def cfgC3 : Config := { baseCfg with days := [⟨defDate, 0, 0⟩], slotMinutes := 30 }

/-- One-day, 2-hour-shift request with a 30-minute break window capping
driving at 15 minutes per window. -/
def cfgC8 : Config :=
  { baseCfg with days := [⟨defDate, 0, 0⟩], shiftMinutes := 120,
                 breakWindowMinutes := 30, breakDriveCapMinutes := 15 }

/-- A request whose model is infeasible: the initial full-trailer count is
1 but the supplied `total_trailers` is 0, so the domain of `FT[0][0]`
contradicts the initial-state equality. -/
def cfgInf : Config :=
  { baseCfg with days := [⟨defDate, 0, 0⟩], shiftMinutes := 120,
                 initFT := 1, totalTrailersIn := some 0 }

/-- The INFEASIBLE outcome for `cfgInf`: no stored solution. -/
def oInf : Outcome := ⟨St.INFEASIBLE, none⟩

/-- A FEASIBLE outcome for `cfgC8` carrying the all-zero assignment. -/
def oC8 : Outcome := ⟨St.FEASIBLE, some zeroAsn⟩

/-! ## Helper lemmas -/

theorem nsum_eq_zero {n : Nat} {f : Nat → Nat} (h : ∀ i < n, f i = 0) :
    nsum n f = 0 := by
  induction n with
  | zero => rfl
  | succ k ih =>
    rw [nsum, ih (fun i hi => h i (by omega)), h k (by omega)]

theorem nsum_congr {n : Nat} {f g : Nat → Nat} (h : ∀ i < n, f i = g i) :
    nsum n f = nsum n g := by
  induction n with
  | zero => rfl
  | succ k ih =>
    rw [nsum, nsum, ih (fun i hi => h i (by omega)), h k (by omega)]

theorem nsum_add (n : Nat) (f g : Nat → Nat) :
    nsum n (fun i => f i + g i) = nsum n f + nsum n g := by
  induction n with
  | zero => rfl
  | succ k ih => rw [nsum, nsum, nsum, ih]; omega

theorem nsum_one (f : Nat → Nat) : nsum 1 f = f 0 := by
  rw [nsum, nsum]; omega

theorem nsum_swap (m n : Nat) (f : Nat → Nat → Nat) :
    nsum m (fun i => nsum n (f i)) = nsum n (fun j => nsum m (fun i => f i j)) := by
  induction m with
  | zero =>
    rw [nsum]
    exact (nsum_eq_zero (fun j hj => rfl)).symm
  | succ k ih =>
    rw [nsum, ih, ← nsum_add]
    exact nsum_congr (fun j hj => rfl)

theorem lagTerm_of_le {f : Nat → Nat} {off t : Nat} (h : off ≤ t) :
    lagTerm f off t = (f (t - off) : Int) := if_pos h

theorem lagTerm_of_lt {f : Nat → Nat} {off t : Nat} (h : t < off) :
    lagTerm f off t = 0 := if_neg (by omega)

theorem lagTerm_eq_zero {f : Nat → Nat} {off t : Nat}
    (h : ∀ w ≤ t, f w = 0) : lagTerm f off t = 0 := by
  unfold lagTerm
  split
  · rw [h (t - off) (by omega)]; rfl
  · rfl

theorem obind_none {α β : Type} (p : Option α) (g : α → Option β)
    (h : ∀ a, g a = none) : (p >>= g) = none := by
  cases p with
  | none => rfl
  | some a => exact h a

theorem mapRangeM_none {α : Type} {k : Nat} (f : Nat → Option α) (hk : 0 < k)
    (h : ∀ j, f j = none) : mapRangeM k f = none := by
  cases k with
  | zero => omega
  | succ j =>
    show (mapRangeM j f >>= _) = none
    refine obind_none _ _ fun l => ?_
    rw [h j]
    rfl

theorem buildDayOut_none (cfg : Config) (d : Nat) :
    buildDayOut cfg none d = none := by
  unfold buildDayOut
  refine obind_none _ _ fun sc => ?_
  refine obind_none _ _ fun uc => ?_
  refine obind_none _ _ fun vc => ?_
  refine obind_none _ _ fun ac => ?_
  refine obind_none _ _ fun rc => ?_
  refine obind_none _ _ fun dT => ?_
  refine obind_none _ _ fun dL => ?_
  rfl

theorem extract_none (cfg : Config) (o : Outcome) (hsol : o.sol = none)
    (hn : 0 < nDays cfg) : extract cfg o = none := by
  unfold extract
  rw [hsol, mapRangeM_none _ hn (buildDayOut_none cfg)]
  rfl

theorem validOutcome_feasible {cfg : Config} {o : Outcome} {x : Asn}
    (hv : ValidOutcome cfg o) (hx : o.sol = some x) : Feasible cfg x :=
  hv.2.1 x hx

theorem validOutcome_sol_none {cfg : Config} {o : Outcome}
    (hv : ValidOutcome cfg o) (h1 : o.st ≠ St.OPTIMAL) (h2 : o.st ≠ St.FEASIBLE) :
    o.sol = none := by
  cases hsol : o.sol with
  | none => rfl
  | some x =>
    rcases hv.1.mp (by rw [hsol]; rfl) with h | h
    · exact absurd h h1
    · exact absurd h h2

theorem feasC5 : Feasible cfgC5 asnC5 := by decide

theorem feasC7 : Feasible cfgC7 asnC7 := by decide

theorem feasC4 : Feasible cfgC4 asnC4 := by decide

theorem feasC3zero : Feasible cfgC3 zeroAsn := by decide

theorem feasC8zero : Feasible cfgC8 zeroAsn := by decide

theorem validOC5 : ValidOutcome cfgC5 oC5 :=
  ⟨by simp [oC5], fun x hx => (Option.some.inj hx) ▸ feasC5,
   fun h => St.noConfusion h⟩

theorem validOC7 : ValidOutcome cfgC7 oC7 :=
  ⟨by simp [oC7], fun x hx => (Option.some.inj hx) ▸ feasC7,
   fun h => St.noConfusion h⟩

theorem validOC4 : ValidOutcome cfgC4 oC4 :=
  ⟨by simp [oC4], fun x hx => (Option.some.inj hx) ▸ feasC4,
   fun h => St.noConfusion h⟩

theorem validOInf : ValidOutcome cfgInf oInf :=
  ⟨by simp [oInf], fun x hx => Option.noConfusion hx,
   fun h => St.noConfusion h⟩

/-! ## Claim theorems -/

/-- C1: in every solution reported with status OPTIMAL or FEASIBLE, for
every day `d` and slot `t`, the inventories satisfy the section-4.4
transition equations exactly, with lagged start sums at slot offsets 23
(supply end), 16 (shuttle end), 2 (refill end), 6 and 8 (resident), 6 and
29 (ADR) under `slot_minutes = 15`, a lagged term being 0 when its shifted
index is negative within the day. -/
theorem C1_conservation (cfg : Config) (o : Outcome) (x : Asn)
    (hv : ValidOutcome cfg o) (hx : o.sol = some x) (h15 : cfg.slotMinutes = 15)
    (d t : Nat) (hd : d < nDays cfg) (ht : t < slotsPerDay cfg) :
    ((x.ft d (t + 1) : Int) = (x.ft d t : Int)
        + (if 23 ≤ t then (sSum cfg x d (t - 23) : Int) else 0)
        + (if 29 ≤ t then (aSum cfg x d (t - 29) : Int) else 0)
        - (x.r d t : Int)
        - (if 6 ≤ t then (vSum cfg x d (t - 6) : Int) else 0)) ∧
    ((x.et d (t + 1) : Int) = (x.et d t : Int)
        - (sSum cfg x d t : Int)
        + (if 2 ≤ t then (x.r d (t - 2) : Int) else 0)
        + (if 8 ≤ t then (vSum cfg x d (t - 8) : Int) else 0)
        - (if 6 ≤ t then (aSum cfg x d (t - 6) : Int) else 0)) ∧
    ((x.tf d (t + 1) : Int) = (x.tf d t : Int)
        + (if 23 ≤ t then (sSum cfg x d (t - 23) : Int) else 0)
        + (if 2 ≤ t then (x.r d (t - 2) : Int) else 0)
        - (uSum cfg x d t : Int)) ∧
    ((x.te d (t + 1) : Int) = (x.te d t : Int)
        - (sSum cfg x d t : Int) - (x.r d t : Int)
        + (if 16 ≤ t then (uSum cfg x d (t - 16) : Int) else 0)) := by
  have hF := validOutcome_feasible hv hx
  have e1 : supplyEndOffset cfg = 23 := by
    unfold supplyEndOffset supplySlots; rw [h15]
  have e2 : adrSupplyEndOffset cfg = 29 := by
    unfold adrSupplyEndOffset adrRefillStartOffset supplyEndOffset supplySlots
    rw [h15]
  have e3 : residentRefillStartOffset cfg = 6 := by
    unfold residentRefillStartOffset; rw [h15]
  have e4 : refillEndOffset cfg = 2 := by
    unfold refillEndOffset refillSlots; rw [h15]
  have e5 : residentRefillEndOffset cfg = 8 := by
    unfold residentRefillEndOffset; rw [h15]
  have e6 : adrRefillStartOffset cfg = 6 := by
    unfold adrRefillStartOffset; rw [h15]
  have e7 : shuttleEndOffset cfg = 16 := by
    unfold shuttleEndOffset shuttleSlots; rw [h15]
  refine ⟨?_, ?_, ?_, ?_⟩
  · have h := hF.transFT d hd t ht
    rw [e1, e2, e3] at h
    simpa [lagTerm] using h
  · have h := hF.transET d hd t ht
    rw [e4, e5, e6] at h
    simpa [lagTerm] using h
  · have h := hF.transTf d hd t ht
    rw [e1, e4] at h
    simpa [lagTerm] using h
  · have h := hF.transTe d hd t ht
    rw [e7] at h
    simpa [lagTerm] using h

/-- Witness for C1: the refill solution of `cfgC5` at day 0, slot 2, where
the refill-end lag (offset 2) fires. -/
theorem C1_conservation_witness :
    ValidOutcome cfgC5 oC5 ∧
    ((asnC5.et 0 3 : Int) = (asnC5.et 0 2 : Int)
      - (sSum cfgC5 asnC5 0 2 : Int)
      + (if 2 ≤ 2 then (asnC5.r 0 0 : Int) else 0)
      + (if 8 ≤ 2 then (vSum cfgC5 asnC5 0 (2 - 8) : Int) else 0)
      - (if 6 ≤ 2 then (aSum cfgC5 asnC5 0 (2 - 6) : Int) else 0)) :=
  ⟨validOC5,
   (C1_conservation cfgC5 oC5 asnC5 validOC5 rfl rfl 0 2 (by decide)
      (by decide)).2.1⟩

/-- C2 (code bug): the code sets the objective to 0 for a non-solution
status, but it still reads `solver.value(...)` for every variable of every
day; with no stored solution those reads fail, so for any request with at
least one day `solve` raises during extraction instead of returning the
status with zero objective and empty starts.  The first conjunct shows the
concrete request `cfgInf` (initial `FT = 1` under a supplied
`total_trailers = 0`) admits no feasible assignment, so its solve status
is necessarily non-OPTIMAL/FEASIBLE. -/
theorem C2_infeasible_extraction :
    (∀ x : Asn, ¬ Feasible cfgInf x) ∧
    (∀ (cfg : Config) (o : Outcome), ValidOutcome cfg o →
      o.st ≠ St.OPTIMAL → o.st ≠ St.FEASIBLE → 0 < nDays cfg →
      extract cfg o = none) := by
  constructor
  · intro x h
    have h1 : (x.ft 0 0 : Int) = 1 := (h.initInv (by decide)).1
    have h2 : (x.ft 0 0 : Int) ≤ 0 := (h.dom 0 (by decide) 0 (by decide)).1
    omega
  · intro cfg o hv h1 h2 hn
    exact extract_none cfg o (validOutcome_sol_none hv h1 h2) hn

/-- Witness for C2: the INFEASIBLE outcome of `cfgInf` makes the
extraction fail. -/
theorem C2_infeasible_extraction_witness :
    ValidOutcome cfgInf oInf ∧ 0 < nDays cfgInf ∧ extract cfgInf oInf = none :=
  ⟨validOInf, by decide,
   C2_infeasible_extraction.2 cfgInf oInf validOInf (by decide) (by decide)
     (by decide)⟩

/-- C3 (code bug): a configuration whose slot size (30 minutes) does not
divide the supply (345 min) and ADR (585 min) durations is not rejected;
the model is built with the floor-divided slot counts (11 and 19 slots,
i.e. 330 and 570 minutes) and is solvable — the all-zero assignment
satisfies it. -/
theorem C3_no_rejection :
    345 % cfgC3.slotMinutes ≠ 0 ∧ 585 % cfgC3.slotMinutes ≠ 0 ∧
    supplySlots cfgC3 = 11 ∧ adrSlots cfgC3 = 19 ∧
    Feasible cfgC3 zeroAsn :=
  ⟨by decide, by decide, rfl, rfl, feasC3zero⟩

/-- Counterexample to C5: on a day with `D_T = D_L = 0` a refill can still
start (refills need no driver), and the inventory changes across the day:
in `cfgC5` the refill at slot 0 turns the full trailer into an empty one. -/
theorem C5_counterexample :
    Feasible cfgC5 asnC5 ∧ (dayAt cfgC5 0).dT = 0 ∧ (dayAt cfgC5 0).dL = 0 ∧
    asnC5.r 0 0 = 1 ∧
    asnC5.ft 0 (slotsPerDay cfgC5) ≠ asnC5.ft 0 0 :=
  ⟨feasC5, by decide, by decide, by decide, by decide⟩

/-- C5 (amended): on a day with `D_T = 0` and `D_L = 0` every driver-task
start (S, U, V, A) is 0, and if additionally no refill starts that day,
the inventory at every boundary of the day equals the day's initial
boundary. -/
theorem C5_amended_no_driver_day (cfg : Config) (x : Asn) (d : Nat)
    (h : Feasible cfg x) (hd : d < nDays cfg)
    (hT : (dayAt cfg d).dT = 0) (hL : (dayAt cfg d).dL = 0) :
    (∀ i < cfg.driversTBase, ∀ t < slotsPerDay cfg,
      x.s d i t = 0 ∧ x.u d i t = 0) ∧
    (∀ j < cfg.driversLBase, ∀ t < slotsPerDay cfg,
      x.v d j t = 0 ∧ x.a d j t = 0) ∧
    ((∀ t < slotsPerDay cfg, x.r d t = 0) →
      ∀ t ≤ slotsPerDay cfg,
        x.ft d t = x.ft d 0 ∧ x.et d t = x.et d 0 ∧
        x.tf d t = x.tf d 0 ∧ x.te d t = x.te d 0) := by
  have hsu : ∀ i < cfg.driversTBase, ∀ t < slotsPerDay cfg,
      x.s d i t = 0 ∧ x.u d i t = 0 := by
    intro i hi t ht
    have h1 := (h.startT d hd i hi t ht).1
    have h2 := (h.startT d hd i hi t ht).2
    rw [if_neg (fun hA => by
      have h3 : ((i : Nat) : Int) < (dayAt cfg d).dT := hA.1
      rw [hT] at h3; omega)] at h1
    rw [if_neg (fun hA => by
      have h3 : ((i : Nat) : Int) < (dayAt cfg d).dT := hA.1
      rw [hT] at h3; omega)] at h2
    omega
  have hva : ∀ j < cfg.driversLBase, ∀ t < slotsPerDay cfg,
      x.v d j t = 0 ∧ x.a d j t = 0 := by
    intro j hj t ht
    have h1 := (h.startL d hd j hj t ht).1
    have h2 := (h.startL d hd j hj t ht).2
    rw [if_neg (fun hA => by
      have h3 : ((j : Nat) : Int) < (dayAt cfg d).dL := hA.1
      rw [hL] at h3; omega)] at h1
    rw [if_neg (fun hA => by
      have h3 : ((j : Nat) : Int) < (dayAt cfg d).dL := hA.1
      rw [hL] at h3; omega)] at h2
    omega
  refine ⟨hsu, hva, ?_⟩
  intro hr
  have hS : ∀ t < slotsPerDay cfg, sSum cfg x d t = 0 :=
    fun t ht => nsum_eq_zero fun i hi => (hsu i hi t ht).1
  have hU : ∀ t < slotsPerDay cfg, uSum cfg x d t = 0 :=
    fun t ht => nsum_eq_zero fun i hi => (hsu i hi t ht).2
  have hV : ∀ t < slotsPerDay cfg, vSum cfg x d t = 0 :=
    fun t ht => nsum_eq_zero fun j hj => (hva j hj t ht).1
  have hA : ∀ t < slotsPerDay cfg, aSum cfg x d t = 0 :=
    fun t ht => nsum_eq_zero fun j hj => (hva j hj t ht).2
  have hstep : ∀ t < slotsPerDay cfg,
      x.ft d (t + 1) = x.ft d t ∧ x.et d (t + 1) = x.et d t ∧
      x.tf d (t + 1) = x.tf d t ∧ x.te d (t + 1) = x.te d t := by
    intro t ht
    have h1 := h.transFT d hd t ht
    have h2 := h.transET d hd t ht
    have h3 := h.transTf d hd t ht
    have h4 := h.transTe d hd t ht
    rw [lagTerm_eq_zero (fun w hw => hS w (by omega)),
        lagTerm_eq_zero (fun w hw => hA w (by omega)),
        lagTerm_eq_zero (fun w hw => hV w (by omega)), hr t ht] at h1
    rw [lagTerm_eq_zero (fun w hw => hr w (by omega)),
        lagTerm_eq_zero (fun w hw => hV w (by omega)),
        lagTerm_eq_zero (fun w hw => hA w (by omega)), hS t ht] at h2
    rw [lagTerm_eq_zero (fun w hw => hS w (by omega)),
        lagTerm_eq_zero (fun w hw => hr w (by omega)), hU t ht] at h3
    rw [lagTerm_eq_zero (fun w hw => hU w (by omega)), hS t ht, hr t ht] at h4
    refine ⟨?_, ?_, ?_, ?_⟩ <;> omega
  intro t
  induction t with
  | zero => exact fun _ => ⟨rfl, rfl, rfl, rfl⟩
  | succ k ih =>
    intro hk1
    have hk := ih (by omega)
    have hs := hstep k (by omega)
    exact ⟨hs.1.trans hk.1, hs.2.1.trans hk.2.1,
           hs.2.2.1.trans hk.2.2.1, hs.2.2.2.trans hk.2.2.2⟩

/-- Witness for the amended C5: the driverless 30-minute-slot request
`cfgC3` with the all-zero assignment keeps its inventory constant. -/
theorem C5_amended_no_driver_day_witness :
    Feasible cfgC3 zeroAsn ∧ (dayAt cfgC3 0).dT = 0 ∧
    zeroAsn.ft 0 (slotsPerDay cfgC3) = zeroAsn.ft 0 0 :=
  ⟨feasC3zero, by decide,
   ((C5_amended_no_driver_day cfgC3 zeroAsn 0 feasC3zero (by decide) (by decide)
      (by decide)).2.2 (fun t ht => rfl) (slotsPerDay cfgC3) (Nat.le_refl _)).1⟩

/-- C6: a task-start indicator is the constant 0 whenever the driver index
reaches the day's availability, the task does not fit in the shift, or
(for the anchored kinds U, V, A) the entry anchor `t + entry_offset_slots`
leaves `[livigno_entry_start_slot, livigno_entry_end_slot]`; S is subject
only to the first two conditions. -/
theorem C6_forced_zero (cfg : Config) (x : Asn) (h : Feasible cfg x)
    (d : Nat) (hd : d < nDays cfg) (t : Nat) (ht : t < slotsPerDay cfg) :
    (∀ i < cfg.driversTBase,
      (((dayAt cfg d).dT ≤ (i : Int) ∨
        slotsPerDay cfg < t + supplySlots cfg) → x.s d i t = 0) ∧
      (((dayAt cfg d).dT ≤ (i : Int) ∨
        slotsPerDay cfg < t + shuttleSlots cfg ∨
        t + shuttleEntryOffset cfg < entryStartSlot cfg ∨
        entryEndSlot cfg < t + shuttleEntryOffset cfg) → x.u d i t = 0)) ∧
    (∀ j < cfg.driversLBase,
      (((dayAt cfg d).dL ≤ (j : Int) ∨
        slotsPerDay cfg < t + residentSlots cfg ∨
        t + residentEntryOffset cfg < entryStartSlot cfg ∨
        entryEndSlot cfg < t + residentEntryOffset cfg) → x.v d j t = 0) ∧
      (((dayAt cfg d).dL ≤ (j : Int) ∨
        slotsPerDay cfg < t + adrSlots cfg ∨
        t + adrEntryOffset cfg < entryStartSlot cfg ∨
        entryEndSlot cfg < t + adrEntryOffset cfg) → x.a d j t = 0)) := by
  constructor
  · intro i hi
    constructor
    · intro hcond
      have h1 := (h.startT d hd i hi t ht).1
      rw [if_neg (fun hAl => by
        obtain ⟨a1, a2⟩ := hAl
        rcases hcond with hc | hc <;> omega)] at h1
      omega
    · intro hcond
      have h1 := (h.startT d hd i hi t ht).2
      rw [if_neg (fun hAl => by
        obtain ⟨a1, a2, a3, a4⟩ := hAl
        rcases hcond with hc | hc | hc | hc <;> omega)] at h1
      omega
  · intro j hj
    constructor
    · intro hcond
      have h1 := (h.startL d hd j hj t ht).1
      rw [if_neg (fun hAl => by
        obtain ⟨a1, a2, a3, a4⟩ := hAl
        rcases hcond with hc | hc | hc | hc <;> omega)] at h1
      omega
    · intro hcond
      have h1 := (h.startL d hd j hj t ht).2
      rw [if_neg (fun hAl => by
        obtain ⟨a1, a2, a3, a4⟩ := hAl
        rcases hcond with hc | hc | hc | hc <;> omega)] at h1
      omega

/-- Witness for C6: in `cfgC5` driver 0 is at the availability bound
(`D_T = 0`), so its supply indicator at slot 0 is 0. -/
theorem C6_forced_zero_witness :
    Feasible cfgC5 asnC5 ∧ (dayAt cfgC5 0).dT ≤ ((0 : Nat) : Int) ∧
    asnC5.s 0 0 0 = 0 :=
  ⟨feasC5, by decide,
   ((C6_forced_zero cfgC5 asnC5 feasC5 0 (by decide) 0 (by decide)).1 0
      (by decide)).1 (Or.inl (by decide))⟩

/-- Counterexample to C7: in `cfgC7` (supplied `total_trailers = 4`,
initial `FT = 4`, `ET = 1`) the assignment `asnC7` is feasible — refills
keep a trailer in transit past every later boundary — yet at the very
first boundary `FT + ET = 5` exceeds the trailer total. -/
theorem C7_counterexample :
    ValidOutcome cfgC7 oC7 ∧
    totalTrailers cfgC7 < (asnC7.ft 0 0 : Int) + (asnC7.et 0 0 : Int) :=
  ⟨validOC7, by decide⟩

/-- C7 (amended): in every reported OPTIMAL/FEASIBLE solution the on-site
totals respect the caps at every boundary `t ∈ [1, slots_per_day]` of
every day and at boundary 0 of every later day; at boundary 0 of day 0
only the four individual variable bounds hold, and the sums there can
exceed supplied totals (see the counterexample). -/
theorem C7_amended_totals (cfg : Config) (o : Outcome) (x : Asn)
    (hv : ValidOutcome cfg o) (hx : o.sol = some x) :
    (∀ d < nDays cfg, ∀ t < slotsPerDay cfg,
      (x.ft d (t + 1) : Int) + (x.et d (t + 1) : Int) ≤ totalTrailers cfg ∧
      (x.tf d (t + 1) : Int) + (x.te d (t + 1) : Int) ≤ totalTractors cfg) ∧
    (0 < slotsPerDay cfg → ∀ d, d + 1 < nDays cfg →
      (x.ft (d + 1) 0 : Int) + (x.et (d + 1) 0 : Int) ≤ totalTrailers cfg ∧
      (x.tf (d + 1) 0 : Int) + (x.te (d + 1) 0 : Int) ≤ totalTractors cfg) ∧
    (0 < nDays cfg →
      (x.ft 0 0 : Int) ≤ totalTrailers cfg ∧
      (x.et 0 0 : Int) ≤ totalTrailers cfg ∧
      (x.tf 0 0 : Int) ≤ totalTractors cfg ∧
      (x.te 0 0 : Int) ≤ totalTractors cfg) := by
  have hF := validOutcome_feasible hv hx
  refine ⟨hF.sumCaps, ?_, fun hn => hF.dom 0 hn 0 (Nat.zero_le _)⟩
  intro hspd d hd1
  obtain ⟨c1, c2, c3, c4⟩ := hF.copyInv d (by omega)
  have hcap := hF.sumCaps d (by omega) (slotsPerDay cfg - 1) (by omega)
  have he : slotsPerDay cfg - 1 + 1 = slotsPerDay cfg := by omega
  rw [he] at hcap
  rw [c1, c2, c3, c4]
  exact hcap

/-- Witness for the amended C7: the boundary after the last slot of
`cfgC5`'s day respects both caps. -/
theorem C7_amended_totals_witness :
    ValidOutcome cfgC5 oC5 ∧
    (asnC5.ft 0 8 : Int) + (asnC5.et 0 8 : Int) ≤ totalTrailers cfgC5 :=
  ⟨validOC5,
   ((C7_amended_totals cfgC5 oC5 asnC5 validOC5 rfl).1 0 (by decide) 7
      (by decide)).1⟩

/-- C8: in every reported OPTIMAL/FEASIBLE solution, for every driver and
every window of `break_window_slots` consecutive slots starting at
`t0 ≤ slots_per_day - break_window_slots`, the number of slots the driver
is actively driving — a slot counts iff a started task covers it at one of
its driving offsets — is at most `break_drive_cap_slots`. -/
theorem C8_break_windows (cfg : Config) (o : Outcome) (x : Asn)
    (hv : ValidOutcome cfg o) (hx : o.sol = some x)
    (d : Nat) (hd : d < nDays cfg) :
    (∀ i < cfg.driversTBase,
      ∀ t0 < slotsPerDay cfg + 1 - breakWindowSlots cfg,
        nsum (breakWindowSlots cfg) (fun w => contribT cfg x d i (t0 + w)) ≤
          breakDriveCapSlots cfg) ∧
    (∀ j < cfg.driversLBase,
      ∀ t0 < slotsPerDay cfg + 1 - breakWindowSlots cfg,
        nsum (breakWindowSlots cfg) (fun w => contribL cfg x d j (t0 + w)) ≤
          breakDriveCapSlots cfg) := by
  have hF := validOutcome_feasible hv hx
  constructor
  · intro i hi t0 ht0
    have heq : nsum (breakWindowSlots cfg) (fun w => contribT cfg x d i (t0 + w)) =
        nsum (breakWindowSlots cfg) (fun w => (x.drvT d i (t0 + w)).toNat) :=
      nsum_congr fun w hw => (hF.drvEqT d hd i hi (t0 + w) (by omega)).symm
    rw [heq]
    exact hF.breakT d hd i hi t0 ht0
  · intro j hj t0 ht0
    have heq : nsum (breakWindowSlots cfg) (fun w => contribL cfg x d j (t0 + w)) =
        nsum (breakWindowSlots cfg) (fun w => (x.drvL d j (t0 + w)).toNat) :=
      nsum_congr fun w hw => (hF.drvEqL d hd j hj (t0 + w) (by omega)).symm
    rw [heq]
    exact hF.breakL d hd j hj t0 ht0

theorem feasB2w : Feasible (cfgB2 defDate 3 1 0 0) zeroAsn := by decide

theorem validOC8 : ValidOutcome cfgC8 oC8 :=
  ⟨by simp [oC8], fun x hx => (Option.some.inj hx) ▸ feasC8zero,
   fun h => St.noConfusion h⟩

/-- Witness for C8: the first window of `cfgC8` (2-slot windows, cap of
1 driving slot) for driver 0 of the idle solution. -/
theorem C8_break_windows_witness :
    ValidOutcome cfgC8 oC8 ∧
    nsum (breakWindowSlots cfgC8)
      (fun w => contribT cfgC8 zeroAsn 0 0 (0 + w)) ≤
      breakDriveCapSlots cfgC8 :=
  ⟨validOC8,
   (C8_break_windows cfgC8 oC8 zeroAsn validOC8 rfl 0 (by decide)).1 0
     (by decide) 0 (by decide)⟩

/-- C9: with a nonnegative `max_extended_days_per_week`, in every reported
OPTIMAL/FEASIBLE solution and for every driver and ISO week, the number of
days of that week whose driving minutes strictly exceed
`drive_minutes_daily` is at most the cap, and the per-(driver, day) flag
is reified in both directions: it is set exactly when the day's driving
strictly exceeds `drive_minutes_daily`. -/
theorem C9_extended_days (cfg : Config) (o : Outcome) (x : Asn)
    (hv : ValidOutcome cfg o) (hx : o.sol = some x)
    (hcap : 0 ≤ cfg.maxExtendedDaysPerWeek) :
    (∀ i < cfg.driversTBase, ∀ d0 < nDays cfg,
      ((nsum (nDays cfg) (fun d =>
          if weekKeyAt cfg d = weekKeyAt cfg d0 ∧
             (cfg.driveMinutesDaily : Int) < (driveDayT cfg x d i : Int)
          then 1 else 0) : Int) ≤ cfg.maxExtendedDaysPerWeek) ∧
      (∀ d < nDays cfg,
        (x.extwT d i = true ↔
          (cfg.driveMinutesDaily : Int) < (driveDayT cfg x d i : Int)))) ∧
    (∀ j < cfg.driversLBase, ∀ d0 < nDays cfg,
      ((nsum (nDays cfg) (fun d =>
          if weekKeyAt cfg d = weekKeyAt cfg d0 ∧
             (cfg.driveMinutesDaily : Int) < (driveDayL cfg x d j : Int)
          then 1 else 0) : Int) ≤ cfg.maxExtendedDaysPerWeek) ∧
      (∀ d < nDays cfg,
        (x.extwL d j = true ↔
          (cfg.driveMinutesDaily : Int) < (driveDayL cfg x d j : Int)))) := by
  have hF := validOutcome_feasible hv hx
  constructor
  · intro i hi d0 hd0
    have hT := hF.extWeekT hcap i hi
    have hiff : ∀ d < nDays cfg,
        (x.extwT d i = true ↔
          (cfg.driveMinutesDaily : Int) < (driveDayT cfg x d i : Int)) := by
      intro d hd
      have h1 := (hT.1 d hd).2.1
      have h2 := (hT.1 d hd).2.2
      constructor
      · exact h1
      · intro hgt
        cases hext : x.extwT d i with
        | true => rfl
        | false => have := h2 hext; omega
    refine ⟨?_, hiff⟩
    have hcount := hT.2 d0 hd0
    have heq : nsum (nDays cfg) (fun d =>
        if weekKeyAt cfg d = weekKeyAt cfg d0 ∧
           (cfg.driveMinutesDaily : Int) < (driveDayT cfg x d i : Int)
        then 1 else 0) =
        nsum (nDays cfg) (fun d =>
          if weekKeyAt cfg d = weekKeyAt cfg d0
          then (x.extwT d i).toNat else 0) := by
      refine nsum_congr fun d hd => ?_
      by_cases hk : weekKeyAt cfg d = weekKeyAt cfg d0
      · by_cases hgt : (cfg.driveMinutesDaily : Int) < (driveDayT cfg x d i : Int)
        · rw [if_pos ⟨hk, hgt⟩, if_pos hk, (hiff d hd).mpr hgt]
          rfl
        · rw [if_neg (fun hc => hgt hc.2), if_pos hk]
          cases hext : x.extwT d i with
          | true => exact absurd ((hiff d hd).mp hext) hgt
          | false => rfl
      · rw [if_neg (fun hc => hk hc.1), if_neg hk]
    rw [heq]
    exact hcount
  · intro j hj d0 hd0
    have hT := hF.extWeekL hcap j hj
    have hiff : ∀ d < nDays cfg,
        (x.extwL d j = true ↔
          (cfg.driveMinutesDaily : Int) < (driveDayL cfg x d j : Int)) := by
      intro d hd
      have h1 := (hT.1 d hd).2.1
      have h2 := (hT.1 d hd).2.2
      constructor
      · exact h1
      · intro hgt
        cases hext : x.extwL d j with
        | true => rfl
        | false => have := h2 hext; omega
    refine ⟨?_, hiff⟩
    have hcount := hT.2 d0 hd0
    have heq : nsum (nDays cfg) (fun d =>
        if weekKeyAt cfg d = weekKeyAt cfg d0 ∧
           (cfg.driveMinutesDaily : Int) < (driveDayL cfg x d j : Int)
        then 1 else 0) =
        nsum (nDays cfg) (fun d =>
          if weekKeyAt cfg d = weekKeyAt cfg d0
          then (x.extwL d j).toNat else 0) := by
      refine nsum_congr fun d hd => ?_
      by_cases hk : weekKeyAt cfg d = weekKeyAt cfg d0
      · by_cases hgt : (cfg.driveMinutesDaily : Int) < (driveDayL cfg x d j : Int)
        · rw [if_pos ⟨hk, hgt⟩, if_pos hk, (hiff d hd).mpr hgt]
          rfl
        · rw [if_neg (fun hc => hgt hc.2), if_pos hk]
          cases hext : x.extwL d j with
          | true => exact absurd ((hiff d hd).mp hext) hgt
          | false => rfl
      · rw [if_neg (fun hc => hk hc.1), if_neg hk]
    rw [heq]
    exact hcount

/-- Witness for C9: the single ISO week of `cfgC5` has no extended days. -/
theorem C9_extended_days_witness :
    ValidOutcome cfgC5 oC5 ∧ (0 : Int) ≤ cfgC5.maxExtendedDaysPerWeek ∧
    ((nsum (nDays cfgC5) (fun d =>
        if weekKeyAt cfgC5 d = weekKeyAt cfgC5 0 ∧
           (cfgC5.driveMinutesDaily : Int) < (driveDayT cfgC5 asnC5 d 0 : Int)
        then 1 else 0) : Int) ≤ cfgC5.maxExtendedDaysPerWeek) :=
  ⟨validOC5, by decide,
   ((C9_extended_days cfgC5 oC5 asnC5 validOC5 rfl (by decide)).1 0 (by decide)
      0 (by decide)).1⟩

/-- Counterexample to C4: a one-day request at defaults with
`initial_state = {FT: 0, ET: 0, Tf: 1, Te: 0}` and `D_T = 1` admits the
feasible one-shuttle solution `asnC4`, so a FEASIBLE report of it carries
`objective_deliveries = 1`, not 0. -/
theorem C4_counterexample :
    ValidOutcome cfgC4 oC4 ∧
    Option.map SolveResultM.objectiveDeliveries (extract cfgC4 oC4) = some 1 :=
  ⟨validOC4, by decide⟩

/-- C4 (amended): for every one-day input at defaults whose initial state
has `ET = 0`, `FT = 0` and additionally `Tf = 0` (any `Te` and driver
availabilities), every assignment a reported OPTIMAL/FEASIBLE solution can
carry has zero deliveries, so the reported `objective_deliveries` is 0. -/
theorem C4_amended_zero_objective (dt : Date) (a b te : Int) (o : Outcome)
    (x : Asn) (hv : ValidOutcome (cfgB2 dt a b 0 te) o) (hx : o.sol = some x) :
    deliveries (cfgB2 dt a b 0 te) x = 0 := by
  have hF := validOutcome_feasible hv hx
  have em : (cfgB2 dt a b 0 te).slotMinutes = 15 := rfl
  have hspd : slotsPerDay (cfgB2 dt a b 0 te) = 48 := by
    simp [slotsPerDay, em, show (cfgB2 dt a b 0 te).shiftMinutes = 720 from rfl]
  have hTT : totalTrailers (cfgB2 dt a b 0 te) = 0 := by
    simp [totalTrailers, show (cfgB2 dt a b 0 te).totalTrailersIn = none from rfl,
      show (cfgB2 dt a b 0 te).initFT = 0 from rfl,
      show (cfgB2 dt a b 0 te).initET = 0 from rfl]
  have e23 : supplyEndOffset (cfgB2 dt a b 0 te) = 23 := by
    simp [supplyEndOffset, supplySlots, em]
  have e29 : adrSupplyEndOffset (cfgB2 dt a b 0 te) = 29 := by
    simp [adrSupplyEndOffset, adrRefillStartOffset, supplyEndOffset, supplySlots, em]
  have e6s : residentRefillStartOffset (cfgB2 dt a b 0 te) = 6 := by
    simp [residentRefillStartOffset, em]
  have e2r : refillEndOffset (cfgB2 dt a b 0 te) = 2 := by
    simp [refillEndOffset, refillSlots, em]
  have e8 : residentRefillEndOffset (cfgB2 dt a b 0 te) = 8 := by
    simp [residentRefillEndOffset, em]
  have e6a : adrRefillStartOffset (cfgB2 dt a b 0 te) = 6 := by
    simp [adrRefillStartOffset, em]
  have er18 : residentSlots (cfgB2 dt a b 0 te) = 18 := by
    simp [residentSlots, em]
  have ea39 : adrSlots (cfgB2 dt a b 0 te) = 39 := by
    simp [adrSlots, em]
  have hdom := hF.dom 0 Nat.one_pos
  rw [hspd, hTT] at hdom
  have hrdom := hF.rdom 0 Nat.one_pos
  rw [hspd, hTT] at hrdom
  have hres := hF.resource 0 Nat.one_pos
  rw [hspd] at hres
  have hstartL := hF.startL 0 Nat.one_pos
  simp only [hspd] at hstartL
  have htrFT := hF.transFT 0 Nat.one_pos
  simp only [hspd, e23, e29, e6s] at htrFT
  have htrET := hF.transET 0 Nat.one_pos
  simp only [hspd, e2r, e8, e6a] at htrET
  have htrTf := hF.transTf 0 Nat.one_pos
  simp only [hspd, e23, e2r] at htrTf
  have hft : ∀ t ≤ 48, x.ft 0 t = 0 := by
    intro t ht
    have h1 := (hdom t ht).1
    omega
  have het : ∀ t ≤ 48, x.et 0 t = 0 := by
    intro t ht
    have h1 := (hdom t ht).2.1
    omega
  have hr : ∀ t < 48, x.r 0 t = 0 := by
    intro t ht
    have h1 := hrdom t ht
    omega
  have hS : ∀ t < 48, sSum (cfgB2 dt a b 0 te) x 0 t = 0 := by
    intro t ht
    have h1 := (hres t ht).1
    have h2 := het t (by omega)
    omega
  have hVhigh : ∀ t < 48, 31 ≤ t → vSum (cfgB2 dt a b 0 te) x 0 t = 0 := by
    intro t ht h31
    refine nsum_eq_zero fun j hj => ?_
    have h1 := (hstartL j hj t ht).1
    rw [if_neg (fun hA => by
      have h2 := hA.2.1
      rw [er18, hspd] at h2
      omega)] at h1
    omega
  have hAhigh : ∀ t < 48, 10 ≤ t → aSum (cfgB2 dt a b 0 te) x 0 t = 0 := by
    intro t ht h10
    refine nsum_eq_zero fun j hj => ?_
    have h1 := (hstartL j hj t ht).2
    rw [if_neg (fun hA => by
      have h2 := hA.2.1
      rw [ea39, hspd] at h2
      omega)] at h1
    omega
  have hETeq : ∀ t < 48,
      lagTerm (vSum (cfgB2 dt a b 0 te) x 0) 8 t =
      lagTerm (aSum (cfgB2 dt a b 0 te) x 0) 6 t := by
    intro t ht
    have h := htrET t ht
    rw [het (t + 1) (by omega), het t (by omega), hS t ht,
        lagTerm_eq_zero (fun w hw => hr w (by omega))] at h
    omega
  have hFTeq : ∀ t < 48,
      lagTerm (vSum (cfgB2 dt a b 0 te) x 0) 6 t =
      lagTerm (aSum (cfgB2 dt a b 0 te) x 0) 29 t := by
    intro t ht
    have h := htrFT t ht
    rw [hft (t + 1) (by omega), hft t (by omega), hr t ht,
        lagTerm_eq_zero (fun w hw => hS w (by omega))] at h
    omega
  have hV22 : ∀ τ, τ ≤ 22 → vSum (cfgB2 dt a b 0 te) x 0 τ = 0 := by
    intro τ hτ
    have h := hFTeq (τ + 6) (by omega)
    rw [lagTerm_of_le (by omega : (6 : Nat) ≤ τ + 6),
        lagTerm_of_lt (by omega : τ + 6 < 29)] at h
    have e : τ + 6 - 6 = τ := by omega
    rw [e] at h
    omega
  have hA9 : ∀ σ, σ ≤ 9 → aSum (cfgB2 dt a b 0 te) x 0 σ = 0 := by
    intro σ hσ
    have h := hETeq (σ + 6) (by omega)
    rw [lagTerm_of_le (by omega : (6 : Nat) ≤ σ + 6)] at h
    have e : σ + 6 - 6 = σ := by omega
    rw [e] at h
    by_cases h2 : 2 ≤ σ
    · rw [lagTerm_of_le (by omega : (8 : Nat) ≤ σ + 6)] at h
      have e2 : σ + 6 - 8 = σ - 2 := by omega
      rw [e2, hV22 (σ - 2) (by omega)] at h
      omega
    · rw [lagTerm_of_lt (by omega : σ + 6 < 8)] at h
      omega
  have hAall : ∀ σ < 48, aSum (cfgB2 dt a b 0 te) x 0 σ = 0 := by
    intro σ hσ
    by_cases h9 : σ ≤ 9
    · exact hA9 σ h9
    · exact hAhigh σ hσ (by omega)
  have hVall : ∀ τ < 48, vSum (cfgB2 dt a b 0 te) x 0 τ = 0 := by
    intro τ hτ
    by_cases h22 : τ ≤ 22
    · exact hV22 τ h22
    by_cases h30 : τ ≤ 30
    · have h := hFTeq (τ + 6) (by omega)
      rw [lagTerm_of_le (by omega : (6 : Nat) ≤ τ + 6),
          lagTerm_of_le (by omega : (29 : Nat) ≤ τ + 6)] at h
      have e1 : τ + 6 - 6 = τ := by omega
      have e2 : τ + 6 - 29 = τ - 23 := by omega
      rw [e1, e2, hA9 (τ - 23) (by omega)] at h
      omega
    · exact hVhigh τ hτ (by omega)
  have htf : ∀ t ≤ 48, x.tf 0 t = 0 := by
    intro t
    induction t with
    | zero =>
      intro _
      have h1 : (x.tf 0 0 : Int) = 0 := (hF.initInv Nat.one_pos).2.2.1
      omega
    | succ k ih =>
      intro hk
      have hk0 := ih (by omega)
      have h := htrTf k (by omega)
      rw [lagTerm_eq_zero (fun w hw => hS w (by omega)),
          lagTerm_eq_zero (fun w hw => hr w (by omega)), hk0] at h
      omega
  have hUall : ∀ t < 48, uSum (cfgB2 dt a b 0 te) x 0 t = 0 := by
    intro t ht
    have h := htrTf t ht
    rw [lagTerm_eq_zero (fun w hw => hS w (by omega)),
        lagTerm_eq_zero (fun w hw => hr w (by omega)),
        htf t (by omega), htf (t + 1) (by omega)] at h
    omega
  have hu' : ∀ t < 48, nsum 4 (fun i => x.u 0 i t) = 0 := hUall
  have hv' : ∀ t < 48, nsum 1 (fun j => x.v 0 j t) = 0 := hVall
  have ha' : ∀ t < 48, nsum 1 (fun j => x.a 0 j t) = 0 := hAall
  have hD : deliveries (cfgB2 dt a b 0 te) x =
      nsum (cfgB2 dt a b 0 te).driversTBase
        (fun i => nsum (slotsPerDay (cfgB2 dt a b 0 te)) fun t => x.u 0 i t) +
      nsum (cfgB2 dt a b 0 te).driversLBase
        (fun j => nsum (slotsPerDay (cfgB2 dt a b 0 te)) fun t => x.v 0 j t) +
      nsum (cfgB2 dt a b 0 te).driversLBase
        (fun j => nsum (slotsPerDay (cfgB2 dt a b 0 te)) fun t => x.a 0 j t) :=
    nsum_one _
  rw [hspd, show (cfgB2 dt a b 0 te).driversTBase = 4 from rfl,
      show (cfgB2 dt a b 0 te).driversLBase = 1 from rfl] at hD
  have s1 : nsum 4 (fun i => nsum 48 fun t => x.u 0 i t) =
      nsum 48 (fun t => nsum 4 fun i => x.u 0 i t) :=
    nsum_swap 4 48 (fun i t => x.u 0 i t)
  have s2 : nsum 1 (fun j => nsum 48 fun t => x.v 0 j t) =
      nsum 48 (fun t => nsum 1 fun j => x.v 0 j t) :=
    nsum_swap 1 48 (fun j t => x.v 0 j t)
  have s3 : nsum 1 (fun j => nsum 48 fun t => x.a 0 j t) =
      nsum 48 (fun t => nsum 1 fun j => x.a 0 j t) :=
    nsum_swap 1 48 (fun j t => x.a 0 j t)
  rw [hD, s1, s2, s3, nsum_eq_zero hu', nsum_eq_zero hv', nsum_eq_zero ha']

/-- Witness for the amended C4: a B2-family request with three T drivers
and one L driver available, carried by a FEASIBLE outcome with the idle
assignment. -/
theorem C4_amended_zero_objective_witness :
    ValidOutcome (cfgB2 defDate 3 1 0 0) ⟨St.FEASIBLE, some zeroAsn⟩ ∧
    deliveries (cfgB2 defDate 3 1 0 0) zeroAsn = 0 :=
  ⟨⟨by simp, fun x hx => (Option.some.inj hx) ▸ feasB2w,
    fun h => St.noConfusion h⟩,
   C4_amended_zero_objective defDate 3 1 0 ⟨St.FEASIBLE, some zeroAsn⟩ zeroAsn
     ⟨by simp, fun x hx => (Option.some.inj hx) ▸ feasB2w,
      fun h => St.noConfusion h⟩ rfl⟩

theorem buildDaysGo_mem_le (dT dL : Avail) (iw : Bool) :
    ∀ (f idx cur : Nat) (b : BDay),
      b ∈ buildDaysGo dT dL iw idx cur f → cur ≤ b.date := by
  intro f
  induction f with
  | zero =>
    intro idx cur b hb
    simp [buildDaysGo] at hb
  | succ g ih =>
    intro idx cur b hb
    simp only [buildDaysGo] at hb
    by_cases hc : iw = false ∧ 5 ≤ pyWeekday cur
    · rw [if_pos hc] at hb
      have := ih idx (cur + 1) b hb
      omega
    · rw [if_neg hc] at hb
      rcases List.mem_cons.mp hb with rfl | hb2
      · exact Nat.le_refl _
      · have := ih (idx + 1) (cur + 1) b hb2
        omega

theorem buildDaysGo_chain (dT dL : Avail) (iw : Bool) :
    ∀ (f idx cur : Nat),
      List.Chain' (fun p q : BDay => p.date < q.date)
        (buildDaysGo dT dL iw idx cur f) := by
  intro f
  induction f with
  | zero => intro idx cur; simp [buildDaysGo]
  | succ g ih =>
    intro idx cur
    simp only [buildDaysGo]
    split
    · exact ih _ _
    · rw [List.chain'_cons']
      refine ⟨fun y hy => ?_, ih _ _⟩
      have hmem := List.mem_of_mem_head? hy
      have := buildDaysGo_mem_le dT dL iw g (idx + 1) (cur + 1) y hmem
      show cur < y.date
      omega

theorem buildDaysGo_weekday (dT dL : Avail) (iw : Bool) (hiw : iw = false) :
    ∀ (f idx cur : Nat) (b : BDay),
      b ∈ buildDaysGo dT dL iw idx cur f → pyWeekday b.date < 5 := by
  intro f
  induction f with
  | zero =>
    intro idx cur b hb
    simp [buildDaysGo] at hb
  | succ g ih =>
    intro idx cur b hb
    simp only [buildDaysGo] at hb
    by_cases hc : iw = false ∧ 5 ≤ pyWeekday cur
    · rw [if_pos hc] at hb
      exact ih _ _ b hb
    · rw [if_neg hc] at hb
      rcases List.mem_cons.mp hb with rfl | hb2
      · show pyWeekday cur < 5
        have h5 : ¬ 5 ≤ pyWeekday cur := fun h => hc ⟨hiw, h⟩
        omega
      · exact ih _ _ b hb2

theorem buildDaysGo_avail (dT dL : Avail) (iw : Bool) :
    ∀ (f idx cur k : Nat) (b : BDay),
      (buildDaysGo dT dL iw idx cur f).get? k = some b →
      b.dT = availAt dT (idx + k) b.date ∧ b.dL = availAt dL (idx + k) b.date := by
  intro f
  induction f with
  | zero =>
    intro idx cur k b hb
    simp [buildDaysGo] at hb
  | succ g ih =>
    intro idx cur k b hb
    simp only [buildDaysGo] at hb
    by_cases hc : iw = false ∧ 5 ≤ pyWeekday cur
    · rw [if_pos hc] at hb
      exact ih idx (cur + 1) k b hb
    · rw [if_neg hc] at hb
      cases k with
      | zero =>
        simp only [List.get?_cons_zero] at hb
        have hbb := Option.some.inj hb
        subst hbb
        constructor <;> simp
      | succ k2 =>
        simp only [List.get?_cons_succ] at hb
        have hres := ih (idx + 1) (cur + 1) k2 b hb
        have e : idx + 1 + k2 = idx + (k2 + 1) := by omega
        rw [e] at hres
        exact hres

/-- C10: for `start_date <= end_date`, `build_days` returns normally even
when availability data does not cover every generated day (a positional
sequence shorter than the day list, or a date-keyed mapping missing some
dates, yields availability 0 for the uncovered days); the returned records
are in strictly ascending date order, and weekend days are omitted when
`include_weekend` is false. -/
theorem C10_build_days (startD endD : Nat) (dT dL : Avail) (iw : Bool)
    (h : startD ≤ endD) :
    ∃ l, buildDays startD endD dT dL iw = some l ∧
      List.Chain' (fun p q : BDay => p.date < q.date) l ∧
      (iw = false → ∀ b ∈ l, pyWeekday b.date < 5) ∧
      (∀ (k : Nat) (b : BDay), l.get? k = some b →
        (∀ lst, dT = Avail.seq lst → lst.length ≤ k → b.dT = 0) ∧
        (∀ m, dT = Avail.byDate m → m.lookup b.date = none → b.dT = 0) ∧
        (∀ lst, dL = Avail.seq lst → lst.length ≤ k → b.dL = 0) ∧
        (∀ m, dL = Avail.byDate m → m.lookup b.date = none → b.dL = 0)) := by
  refine ⟨buildDaysGo dT dL iw 0 startD (endD + 1 - startD), ?_, ?_, ?_, ?_⟩
  · unfold buildDays
    rw [if_neg (by omega)]
  · exact buildDaysGo_chain dT dL iw _ 0 startD
  · intro hiw b hb
    exact buildDaysGo_weekday dT dL iw hiw _ 0 startD b hb
  · intro k b hb
    have hav := buildDaysGo_avail dT dL iw _ 0 startD k b hb
    rw [Nat.zero_add] at hav
    refine ⟨?_, ?_, ?_, ?_⟩
    · intro lst hseq hlen
      rw [hav.1, hseq]
      show (if k < lst.length then lst.getD k 0 else 0) = 0
      rw [if_neg (by omega)]
    · intro m hmap hlook
      rw [hav.1, hmap]
      show (m.lookup b.date).getD 0 = 0
      rw [hlook]
      rfl
    · intro lst hseq hlen
      rw [hav.2, hseq]
      show (if k < lst.length then lst.getD k 0 else 0) = 0
      rw [if_neg (by omega)]
    · intro m hmap hlook
      rw [hav.2, hmap]
      show (m.lookup b.date).getD 0 = 0
      rw [hlook]
      rfl

/-- Witness for C10: a six-day range starting on a Monday (day number
18999), a one-element positional `D_T` and an empty date-keyed `D_L`,
without weekends. -/
theorem C10_build_days_witness :
    18999 ≤ 19004 ∧
    (∃ l, buildDays 18999 19004 (Avail.seq [2]) (Avail.byDate []) false = some l ∧
      List.Chain' (fun p q : BDay => p.date < q.date) l ∧
      (false = false → ∀ b ∈ l, pyWeekday b.date < 5) ∧
      (∀ (k : Nat) (b : BDay), l.get? k = some b →
        (∀ lst, Avail.seq [2] = Avail.seq lst → lst.length ≤ k → b.dT = 0) ∧
        (∀ m, Avail.seq [2] = Avail.byDate m → m.lookup b.date = none → b.dT = 0) ∧
        (∀ lst, Avail.byDate [] = Avail.seq lst → lst.length ≤ k → b.dL = 0) ∧
        (∀ m, Avail.byDate [] = Avail.byDate m → m.lookup b.date = none →
          b.dL = 0))) :=
  ⟨by decide,
   C10_build_days 18999 19004 (Avail.seq [2]) (Avail.byDate []) false (by decide)⟩
